import Mathlib

/-! # WebRTC tile source: request correlation and statistics

A shallow embedding of `src/webrtc-tilesource.js` (the OpenSeadragon tile source that fetches
tiles over a WebRTC data channel) and of the statistics handlers of
`src/useWebRTCTileSource.js`.

Conventions of the embedding:

* A non-negative integer Number value is the natural number it equals, and `Infinity` is
  `2 ^ 1024`. `parseInt` rounds the integer a digit string denotes to the nearest Number value;
  the template-literal conversion `numberToString` writes the shortest decimal that rounds
  back to the value, in exponent notation from `10 ^ 21` on. Only Number values occur as
  coordinates and status codes.
* The request counter and the clock reading are safe integers (the counter counts calls, the
  clock reads a time value), written as plain decimal numerals.
* The `Map` of pending requests is an association list in insertion order.
* The host environment (timers, image decoding, the clock, the transport) is explicit state;
  everything the tile source does to the outside world is appended to an effect trace.
* Sinks and observers are callbacks of other components: they return normally and do not call
  back into the tile source while it is running. The user callbacks of the composable
  (`onTileRequest`, `onTileResponse`, `onError`) are not installed.
-/

namespace WebRTCTileSource

/-! ## Numbers and strings -/

/-- The decimal digit character of a value below ten. -/
def digitChar : Nat → Char
  | 0 => '0' | 1 => '1' | 2 => '2' | 3 => '3' | 4 => '4'
  | 5 => '5' | 6 => '6' | 7 => '7' | 8 => '8' | _ => '9'

/-- Decimal digits of `n`, least significant first; `fuel` bounds the number of digits. -/
def digitsRev : Nat → Nat → List Char
  | 0, _ => []
  | fuel + 1, n =>
    if n < 10 then [digitChar n] else digitChar (n % 10) :: digitsRev fuel (n / 10)

/-- The plain decimal numeral of `n`, without leading zeros. -/
def decimalNumeral (n : Nat) : String :=
  String.mk (digitsRev (n + 1) n).reverse

/-- The value of one character matched by the regular expression class `\d`. -/
def digitValue (c : Char) : Nat := c.toNat - 48

/-- The exact integer that a string of decimal digits denotes. -/
def digitsValue (ds : List Char) : Nat :=
  ds.foldl (fun acc c => 10 * acc + digitValue c) 0

/-- The value of a digit list written least significant digit first. -/
def revValue : List Char → Nat
  | [] => 0
  | c :: cs => digitValue c + 10 * revValue cs

/-- The Number value `Infinity`, modelled by `2 ^ 1024`, the first power of two beyond the
finite Number values. -/
def infinity : Nat := 2 ^ 256 * 2 ^ 256 * 2 ^ 256 * 2 ^ 256

/-- The binary exponent of `n` in the double format: the least `e` from the start value on with
`n < 2 ^ (53 + e)`; `fuel` bounds the search. -/
def binaryExponent : Nat → Nat → Nat → Nat
  | 0, e, _ => e
  | fuel + 1, e, n => if n < 2 ^ (53 + e) then e else binaryExponent fuel (e + 1) n

/-- The Number value of the integer `n`: `n` rounded to 53 significant bits, to nearest with
ties to even, and `Infinity` when the result leaves the finite range. -/
def roundToDouble (n : Nat) : Nat :=
  let e := binaryExponent n 0 n
  let q := n / 2 ^ e
  let r := n % 2 ^ e
  let m :=
    if 2 * r < 2 ^ e then q
    else if 2 ^ e < 2 * r then q + 1
    else if q % 2 = 0 then q else q + 1
  if m * 2 ^ e < infinity then m * 2 ^ e else infinity

/-- The function `parseInt` on a string of decimal digits (what a `(\d+)` group captures): the
Number value of the integer the digits denote. -/
def parseInt (ds : List Char) : Nat := roundToDouble (digitsValue ds)

/-- The search of `Number::toString` for the decimal with the fewest significant digits that
rounds to the Number value `v`: with `k` significant digits kept out of `len`, the candidates
are `v` cut to `k` digits and the next `k`-digit decimal above it; of two that round to `v` the
closer is taken, the even one on a tie. `fuel` bounds `k`. -/
def shortestFrom : Nat → Nat → Nat → Nat → Nat
  | 0, _, _, v => v
  | fuel + 1, k, len, v =>
    let p := 10 ^ (len - k)
    let lo := v / p * p
    let hi := lo + p
    if roundToDouble lo = v then
      if roundToDouble hi = v then
        if v - lo < hi - v then lo
        else if hi - v < v - lo then hi
        else if (v / p) % 2 = 0 then lo else hi
      else lo
    else if roundToDouble hi = v then hi
    else shortestFrom fuel (k + 1) len v

/-- The decimal with the fewest significant digits that rounds to the Number value `v`. -/
def shortestDecimal (v : Nat) : Nat :=
  shortestFrom (digitsRev (v + 1) v).length 1 (digitsRev (v + 1) v).length v

/-- Exponent notation of `x`: the significant digits with a point after the first one, then
`e+` and the decimal exponent. -/
def exponentNotation (x : Nat) : String :=
  match ((digitsRev (x + 1) x).dropWhile (fun c => c == '0')).reverse with
  | [] => "0"
  | d :: rest =>
    String.mk (d :: (if rest.isEmpty then [] else '.' :: rest)) ++ "e+" ++
      decimalNumeral ((digitsRev (x + 1) x).length - 1)

/-- Number-to-string conversion of a template literal, for a non-negative integer Number
value: `Infinity`, or the shortest decimal that rounds to the value, written in full below
`10 ^ 21` and in exponent notation from there on. -/
def numberToString (n : Nat) : String :=
  if infinity ≤ n then "Infinity"
  else if shortestDecimal n < 10 ^ 21 then decimalNumeral (shortestDecimal n)
  else exponentNotation (shortestDecimal n)

/-- An integer Number value that the template literal writes in full: below `10 ^ 21`. -/
def IsPlainNumber (n : Nat) : Prop := roundToDouble n = n ∧ n < 10 ^ 21

/-- JavaScript truthiness of a value that is a string, `null` or `undefined`. -/
def truthy : Option String → Bool
  | some s => s != ""
  | none => false

/-! ## Tile identifiers -/

/-- A tile coordinate, the object returned by `_parseTileUrl`. -/
structure TileCoords where
  level : Nat
  x : Nat
  y : Nat
  deriving DecidableEq

/-- The tile identifier of `getTileUrl`. -/
def getTileUrl (level x y : Nat) : String :=
  "webrtc://tile/" ++ numberToString level ++ "/" ++ numberToString x ++ "/" ++ numberToString y

/-- Consume the literal text `lit` at the head of the input. -/
def dropLiteral : List Char → List Char → Option (List Char)
  | [], cs => some cs
  | _ :: _, [] => none
  | l :: ls, c :: cs => if l = c then dropLiteral ls cs else none

/-- Consume one greedy group `(\d+)`: the longest non-empty run of digits at the head of the
input. A shorter run is never tried: in the pattern each group is followed by `/` or by the
end of the pattern, and after a shorter run the next character is a digit, so backtracking
cannot turn a failure into a match. -/
def digitGroup (cs : List Char) : Option (List Char × List Char) :=
  let ds := cs.takeWhile Char.isDigit
  if ds = [] then none else some (ds, cs.dropWhile Char.isDigit)

/-- An attempt to match `webrtc:\/\/tile\/(\d+)\/(\d+)\/(\d+)` starting exactly at the head of
the input; the three captured groups. -/
def matchHere (cs : List Char) : Option (List Char × List Char × List Char) :=
  match dropLiteral "webrtc://tile/".toList cs with
  | none => none
  | some r1 =>
    match digitGroup r1 with
    | none => none
    | some (g1, r2) =>
      match dropLiteral "/".toList r2 with
      | none => none
      | some r3 =>
        match digitGroup r3 with
        | none => none
        | some (g2, r4) =>
          match dropLiteral "/".toList r4 with
          | none => none
          | some r5 =>
            match digitGroup r5 with
            | none => none
            | some (g3, _) => some (g1, g2, g3)

/-- The unanchored search of `String.prototype.match`: the match attempt at the leftmost
position that succeeds. -/
def regexSearch : List Char → Option (List Char × List Char × List Char)
  | [] => matchHere []
  | c :: cs =>
    match matchHere (c :: cs) with
    | some m => some m
    | none => regexSearch cs

/-- The method `_parseTileUrl`: the coordinate encoded in an identifier, or `none` for `null`. -/
def _parseTileUrl (url : String) : Option TileCoords :=
  match regexSearch url.toList with
  | some (g1, g2, g3) => some { level := parseInt g1, x := parseInt g2, y := parseInt g3 }
  | none => none

/-! ## Data model -/

/-- The download context OpenSeadragon passes to `downloadTileStart` and `downloadTileAbort`.
`ref` is the identity of the object (what `===` compares), `src` its `src` property. -/
structure Context where
  ref : Nat
  src : String
  deriving DecidableEq

/-- A value of the `pendingRequests` map. -/
structure Request where
  context : Context
  timeoutId : Nat
  level : Nat
  x : Nat
  y : Nat
  timestamp : Nat
  deriving DecidableEq

/-- The argument of `handleResponse` (the `data` member of an inbound message). -/
structure ResponseData where
  requestId : String
  responseCode : Nat
  resposeData : Option String
  error : Option String
  deriving DecidableEq

/-- The outbound message built by `_sendSdpcRtcRequest`. -/
structure RequestData where
  RequestId : String
  Method : String
  IdNo : String
  Level : Nat
  X : Nat
  Y : Nat
  ColorMd5 : String
  deriving DecidableEq

/-- A scheduled timeout callback: its timer id and the variables its closure captured. -/
structure Timer where
  id : Nat
  requestId : String
  context : Context
  delay : Nat
  deriving DecidableEq

/-- An `Image` element whose `src` was set by `_loadImageFromBase64`, with the context its
`onload` and `onerror` handlers captured. -/
structure ImageLoad where
  id : Nat
  src : String
  context : Context
  deriving DecidableEq

/-- What the tile source does to the outside world. The sink callbacks record the keys of the
pending-request map at the moment of the call. -/
inductive Effect where
  | fail (context : Context) (reason : String) (registry : List String)
  | finish (context : Context) (image : Nat) (registry : List String)
  | setTimeout (id : Nat) (delay : Nat)
  | clearTimeout (id : Nat)
  | refreshSlice (channelName : String) (data : RequestData)
  | onRequest (data : RequestData)
  | onResponse (response : ResponseData) (request : Request)
  | onError (error : String)
  | imageSrc (image : Nat) (src : String)
  deriving DecidableEq

/-- The reactive `stats` object of the composable. -/
structure Stats where
  totalRequests : Nat
  successCount : Nat
  errorCount : Nat
  pendingRequests : Nat
  connectionTime : Option Nat
  lastRequestTime : Option Nat
  lastResponseTime : Option Nat
  deriving DecidableEq

/-- The outcome of the transport call `sdpcRtc.refreshSlice`. -/
inductive SendOutcome where
  | sent
  | threw (message : String)
  deriving DecidableEq

/-- The tile source instance together with the composable statistics it reports to and the
host environment. The flags `onRequest`, `onResponse`, `onError` say whether the callback is
the composable handler (`handleTileRequest`, `handleTileResponse`, `handleTileError`) or
`null`; `webrtcTileSource` says whether the composable holds a reference to the instance. -/
structure State where
  sdpcId : String
  requestTimeout : Nat
  sdpcRtc : Bool
  channelName : Option String
  onRequest : Bool
  onResponse : Bool
  onError : Bool
  pendingRequests : List (String × Request)
  requestCounter : Nat
  stats : Stats
  webrtcTileSource : Bool
  now : Nat
  nextTimer : Nat
  timers : List Timer
  nextImage : Nat
  images : List ImageLoad
  trace : List Effect
  deriving DecidableEq

/-- The options object given to the constructor. -/
structure Options where
  sdpcId : Option String
  requestTimeout : Option Nat
  sdpcRtc : Bool
  channelName : Option String
  onRequest : Bool
  onResponse : Bool
  onError : Bool
  deriving DecidableEq

/-- The initial value of the composable `stats`. -/
def Stats.zero : Stats :=
  { totalRequests := 0, successCount := 0, errorCount := 0, pendingRequests := 0,
    connectionTime := none, lastRequestTime := none, lastResponseTime := none }

/-- The constructor `OpenSeadragon.WebRTCTileSource`, in an environment whose clock reads
`now`; `held` says whether the composable has stored the instance in `webrtcTileSource`. -/
def construct (options : Options) (now : Nat) (held : Bool) : State :=
  { sdpcId := if truthy options.sdpcId then options.sdpcId.getD "" else "default_instance_id"
    requestTimeout :=
      match options.requestTimeout with
      | some t => if t = 0 then 10000 else t
      | none => 10000
    sdpcRtc := options.sdpcRtc
    channelName := if truthy options.channelName then options.channelName else none
    onRequest := options.onRequest
    onResponse := options.onResponse
    onError := options.onError
    pendingRequests := []
    requestCounter := 0
    stats := Stats.zero
    webrtcTileSource := held
    now := now
    nextTimer := 1
    timers := []
    nextImage := 0
    images := []
    trace := [] }

/-! ## The `Map` of pending requests -/

/-- The operation `Map.prototype.get`. -/
def mapGet (k : String) (m : List (String × Request)) : Option Request :=
  (m.find? (fun p => p.1 == k)).map Prod.snd

/-- The operation `Map.prototype.set`: an existing key keeps its position, a new key is
appended. -/
def mapSet (k : String) (v : Request) : List (String × Request) → List (String × Request)
  | [] => [(k, v)]
  | p :: m => if p.1 == k then (k, v) :: m else p :: mapSet k v m

/-- The operation `Map.prototype.delete`. -/
def mapDelete (k : String) (m : List (String × Request)) : List (String × Request) :=
  m.filter (fun p => p.1 != k)

/-- The keys of the pending-request map, in insertion order. -/
def registryKeys (s : State) : List String := s.pendingRequests.map Prod.fst

/-- The method `getPendingRequestCount`. -/
def getPendingRequestCount (s : State) : Nat := s.pendingRequests.length

/-! ## Host environment and sinks -/

/-- Append an effect to the trace. -/
def emit (s : State) (e : Effect) : State := { s with trace := s.trace ++ [e] }

/-- The call `context.fail(reason)`. -/
def contextFail (s : State) (context : Context) (reason : String) : State :=
  emit s (Effect.fail context reason (registryKeys s))

/-- The call `context.finish(img, null, 'image')`. -/
def contextFinish (s : State) (context : Context) (image : Nat) : State :=
  emit s (Effect.finish context image (registryKeys s))

/-- The host function `setTimeout`, scheduling the timeout callback of `downloadTileStart`
for `requestId` and `context`; returns the timer id. -/
def setTimeout (s : State) (requestId : String) (context : Context) : Nat × State :=
  (s.nextTimer,
    { emit s (Effect.setTimeout s.nextTimer s.requestTimeout) with
      nextTimer := s.nextTimer + 1
      timers := s.timers ++
        [{ id := s.nextTimer, requestId := requestId, context := context,
           delay := s.requestTimeout }] })

/-- The host function `clearTimeout`. -/
def clearTimeout (s : State) (id : Nat) : State :=
  { emit s (Effect.clearTimeout id) with timers := s.timers.filter (fun t => t.id != id) }

/-! ## The composable handlers -/

/-- The handler `handleTileRequest` (user callback `onTileRequest` not installed). -/
def handleTileRequest (s : State) (_requestData : RequestData) : State :=
  { s with stats := { s.stats with
      totalRequests := s.stats.totalRequests + 1
      lastRequestTime := some s.now } }

/-- The handler `handleTileResponse` (user callback `onTileResponse` not installed). -/
def handleTileResponse (s : State) (responseData : ResponseData) (_request : Request) : State :=
  let st1 : Stats := { s.stats with lastResponseTime := some s.now }
  let st2 : Stats :=
    if responseData.responseCode = 200 then
      { st1 with successCount := st1.successCount + 1 }
    else
      { st1 with errorCount := st1.errorCount + 1 }
  let st3 : Stats :=
    if s.webrtcTileSource then { st2 with pendingRequests := getPendingRequestCount s } else st2
  { s with stats := st3 }

/-- The handler `handleTileError` (user callback `onError` not installed). -/
def handleTileError (s : State) (_error : String) : State :=
  { s with stats := { s.stats with errorCount := s.stats.errorCount + 1 } }

/-- The method `_triggerRequest`. -/
def _triggerRequest (s : State) (requestData : RequestData) : State :=
  if s.onRequest then handleTileRequest (emit s (Effect.onRequest requestData)) requestData
  else s

/-- The method `_triggerResponse`. -/
def _triggerResponse (s : State) (responseData : ResponseData) (request : Request) : State :=
  if s.onResponse then
    handleTileResponse (emit s (Effect.onResponse responseData request)) responseData request
  else s

/-- The method `_triggerError`. -/
def _triggerError (s : State) (error : String) : State :=
  if s.onError then handleTileError (emit s (Effect.onError error)) error else s

/-! ## The tile source methods -/

/-- The text of a request id, from the counter value and the clock reading, both safe
integers, for which the template literal writes the plain decimal numeral. -/
def requestIdFor (counter now : Nat) : String :=
  "req_" ++ decimalNumeral counter ++ "_" ++ decimalNumeral now

/-- The method `_generateRequestId`: pre-increments the counter, then reads the clock. -/
def _generateRequestId (s : State) : String × State :=
  let s1 := { s with requestCounter := s.requestCounter + 1 }
  (requestIdFor s1.requestCounter s1.now, s1)

/-- The method `_loadImageFromBase64`: creates an image, installs the two handlers and sets
its `src`; the handlers run later, see `imageSettled`. -/
def _loadImageFromBase64 (s : State) (base64Data : String) (context : Context) : State :=
  let imageData :=
    if "data:".toList.isPrefixOf base64Data.toList then base64Data
    else "data:image/jpeg;base64," ++ base64Data
  { emit s (Effect.imageSrc s.nextImage imageData) with
    nextImage := s.nextImage + 1
    images := s.images ++ [{ id := s.nextImage, src := imageData, context := context }] }

/-- The method `_sendSdpcRtcRequest`; `send` is what the transport call does. The call of
`refreshSlice` is recorded in the trace whether it returns or throws. -/
def _sendSdpcRtcRequest (s : State) (level x y : Nat) (requestId : String)
    (send : SendOutcome) : State :=
  let data : RequestData :=
    { RequestId := requestId, Method := "GetTile", IdNo := s.sdpcId,
      Level := level, X := x, Y := y, ColorMd5 := "" }
  let s1 := emit s (Effect.refreshSlice (s.channelName.getD "") data)
  match send with
  | SendOutcome.sent => _triggerRequest s1 data
  | SendOutcome.threw message =>
    let s2 :=
      match mapGet requestId s1.pendingRequests with
      | some request =>
        let s3 := clearTimeout s1 request.timeoutId
        let s4 := { s3 with pendingRequests := mapDelete requestId s3.pendingRequests }
        contextFail s4 request.context ("Send failed: " ++ message)
      | none => s1
    _triggerError s2 ("Send failed: " ++ message)

/-- The method `downloadTileStart`; `send` is what the transport call does if it is reached. -/
def downloadTileStart (s : State) (context : Context) (send : SendOutcome) : State :=
  if !s.sdpcRtc || !truthy s.channelName then
    _triggerError (contextFail s context "SdpcRtc instance or channel name not available")
      "SdpcRtc instance or channel name not available"
  else
    match _parseTileUrl context.src with
    | none =>
      _triggerError (contextFail s context "Invalid tile URL format") "Invalid tile URL format"
    | some tileCoords =>
      let (requestId, s1) := _generateRequestId s
      let (timeoutId, s2) := setTimeout s1 requestId context
      let request : Request :=
        { context := context, timeoutId := timeoutId, level := tileCoords.level,
          x := tileCoords.x, y := tileCoords.y, timestamp := s2.now }
      let s3 := { s2 with pendingRequests := mapSet requestId request s2.pendingRequests }
      _sendSdpcRtcRequest s3 tileCoords.level tileCoords.x tileCoords.y requestId send

/-- The callback given to `setTimeout` in `downloadTileStart`, run by the host when timer `id`
elapses. A timer that was cleared, or has already fired, does not run. -/
def fireTimeout (s : State) (id : Nat) : State :=
  match s.timers.find? (fun t => t.id == id) with
  | none => s
  | some t =>
    let s1 := { s with timers := s.timers.filter (fun u => u.id != id) }
    let s2 := { s1 with pendingRequests := mapDelete t.requestId s1.pendingRequests }
    let error := "Request timeout: " ++ t.requestId
    _triggerError (contextFail s2 t.context error) error

/-- The method `downloadTileAbort`. -/
def downloadTileAbort (s : State) (context : Context) : State :=
  match s.pendingRequests.find? (fun p => p.2.context.ref == context.ref) with
  | some (requestId, request) =>
    let s1 := clearTimeout s request.timeoutId
    { s1 with pendingRequests := mapDelete requestId s1.pendingRequests }
  | none => s

/-- The method `setSdpcRtc`. -/
def setSdpcRtc (s : State) (sdpcRtc : Bool) (channelName : Option String) : State :=
  { s with sdpcRtc := sdpcRtc, channelName := channelName }

/-- The key a response must carry to match a pending request. -/
def expectedResponseId (request : Request) : String :=
  "GetTile " ++ numberToString request.level ++ " " ++ numberToString request.x ++ " " ++
    numberToString request.y

/-- The method `handleResponse`. -/
def handleResponse (s : State) (responseData : ResponseData) : State :=
  match s.pendingRequests.find? (fun p => responseData.requestId == expectedResponseId p.2) with
  | none => _triggerError s ("Unknown response: " ++ responseData.requestId)
  | some (foundRequestId, foundRequest) =>
    let s1 := clearTimeout s foundRequest.timeoutId
    let s2 := { s1 with pendingRequests := mapDelete foundRequestId s1.pendingRequests }
    let s3 := _triggerResponse s2 responseData foundRequest
    if responseData.responseCode = 200 ∧ truthy responseData.resposeData then
      _loadImageFromBase64 s3 (responseData.resposeData.getD "") foundRequest.context
    else
      let errorMsg :=
        if truthy responseData.error then responseData.error.getD ""
        else "HTTP " ++ numberToString responseData.responseCode
      _triggerError (contextFail s3 foundRequest.context errorMsg) errorMsg

/-- The method `clearPendingRequests`: the loop runs over the map without changing it, the map
is emptied afterwards. -/
def clearPendingRequests (s : State) : State :=
  let s1 := s.pendingRequests.foldl
    (fun acc p => contextFail (clearTimeout acc p.2.timeoutId) p.2.context "Request cancelled") s
  { s1 with pendingRequests := [] }

/-- The `onload` (`loaded = true`) or `onerror` handler of image `id`, run by the host when the
image settles. An image settles once. -/
def imageSettled (s : State) (id : Nat) (loaded : Bool) : State :=
  match s.images.find? (fun i => i.id == id) with
  | none => s
  | some i =>
    let s1 := { s with images := s.images.filter (fun j => j.id != id) }
    if loaded then contextFinish s1 i.context i.id
    else contextFail s1 i.context "Failed to load base64 image"

/-! ## Runs -/

/-- The events that drive a tile source. -/
inductive Event where
  | start (context : Context) (send : SendOutcome)
  | abort (context : Context)
  | response (responseData : ResponseData)
  | timeout (id : Nat)
  | clear
  | image (id : Nat) (loaded : Bool)
  | clock (now : Nat)
  deriving DecidableEq

/-- One event. -/
def step (s : State) : Event → State
  | Event.start context send => downloadTileStart s context send
  | Event.abort context => downloadTileAbort s context
  | Event.response responseData => handleResponse s responseData
  | Event.timeout id => fireTimeout s id
  | Event.clear => clearPendingRequests s
  | Event.image id loaded => imageSettled s id loaded
  | Event.clock now => { s with now := now }

/-- A sequence of events. -/
def run (s : State) (events : List Event) : State := events.foldl step s

/-- The identities of the contexts given to `downloadTileStart` in a run, in order. -/
def startedRefs : List Event → List Nat
  | [] => []
  | Event.start context _ :: es => context.ref :: startedRefs es
  | _ :: es => startedRefs es

/-- Whether an effect is a terminal callback (`fail` or `finish`) on the context `c`. -/
def isTerminalFor (c : Nat) : Effect → Bool
  | Effect.fail context _ _ => context.ref == c
  | Effect.finish context _ _ => context.ref == c
  | _ => false

/-- The number of terminal callbacks the context `c` has received. -/
def terminalCount (c : Nat) (trace : List Effect) : Nat := trace.countP (isTerminalFor c)

/-- Whether an effect is a call of `fail` on the context `c`. -/
def isFailFor (c : Nat) : Effect → Bool
  | Effect.fail context _ _ => context.ref == c
  | _ => false

/-- The composable wiring of `initializeViewer`: transport and channel present, the three
handlers installed. -/
def wiredOptions : Options :=
  { sdpcId := some "202204071103", requestTimeout := some 10000, sdpcRtc := true,
    channelName := some "default_channel", onRequest := true, onResponse := true,
    onError := true }

/-- A context for the tile `(level, x, y)`. -/
def tileContext (ref level x y : Nat) : Context := { ref := ref, src := getTileUrl level x y }

/-! ## Invariants and run guards -/

/-- The number of pending requests whose stored context is `c`. -/
def pendingCount (c : Nat) (s : State) : Nat :=
  s.pendingRequests.countP (fun p => p.2.context.ref == c)

/-- The number of images in flight whose handlers captured the context `c`. -/
def imageCount (c : Nat) (s : State) : Nat :=
  s.images.countP (fun i => i.context.ref == c)

/-- The terminal callbacks the context `c` has received, together with the pending requests
and the images in flight that can still deliver one to it. -/
def resolutionCount (c : Nat) (s : State) : Nat :=
  terminalCount c s.trace + pendingCount c s + imageCount c s

/-- The representation invariant of a tile source: the map has no duplicate key, every key was
generated from a counter value already used, and every live timer belongs to a pending request
that stores its id and its context. -/
def WellFormed (s : State) : Prop :=
  (registryKeys s).Nodup ∧
  (∀ k ∈ registryKeys s, ∃ n t, n ≤ s.requestCounter ∧ k = requestIdFor n t) ∧
  (∀ t ∈ s.timers, ∃ q, (t.requestId, q) ∈ s.pendingRequests ∧ q.timeoutId = t.id ∧
    q.context = t.context)

/-- The three composable handlers are installed as the callbacks of the tile source. -/
def Wired (s : State) : Prop :=
  s.onRequest = true ∧ s.onResponse = true ∧ s.onError = true

/-- Whether `downloadTileStart` registers a request and the transport accepts it. -/
def startSucceeds (s : State) (context : Context) (send : SendOutcome) : Bool :=
  s.sdpcRtc && truthy s.channelName && (_parseTileUrl context.src).isSome &&
    send == SendOutcome.sent

/-- Whether a response matches a pending request and carries code 200 and a payload. -/
def successResponse (s : State) (responseData : ResponseData) : Bool :=
  (s.pendingRequests.find? (fun p => responseData.requestId == expectedResponseId p.2)).isSome &&
    responseData.responseCode == 200 && truthy responseData.resposeData

/-- The events after which every request sent is counted once: accepted starts, matched
success responses, timeouts, image completions and clock changes. -/
def keepsBalance (s : State) : Event → Bool
  | Event.start context send => startSucceeds s context send
  | Event.response responseData => successResponse s responseData
  | Event.timeout _ => true
  | Event.image _ _ => true
  | Event.clock _ => true
  | Event.abort _ => false
  | Event.clear => false

/-- The events of `keepsBalance` together with `downloadTileAbort` and
`clearPendingRequests`. -/
def keepsBound (s : State) : Event → Bool
  | Event.abort _ => true
  | Event.clear => true
  | e => keepsBalance s e

/-- Whether every event of a run passes the guard in the state it is applied to. -/
def allowedRun (guard : State → Event → Bool) : State → List Event → Bool
  | _, [] => true
  | s, e :: es => guard s e && allowedRun guard (step s e) es

/-! ## Concrete inputs -/

/-- A tile source wired as `initializeViewer` does, with the clock at 1000. -/
def demoSource : State := construct wiredOptions 1000 true

/-- The source after a request for tile `(0, 0, 0)` by context 1 was sent. -/
def onePending : State :=
  run demoSource [Event.start (tileContext 1 0 0 0) SendOutcome.sent]

/-- The source after two contexts requested the same tile `(0, 0, 0)`. -/
def twoPending : State :=
  run demoSource [Event.start (tileContext 1 0 0 0) SendOutcome.sent,
    Event.start (tileContext 2 0 0 0) SendOutcome.sent]

/-- A success response for tile `(0, 0, 0)`. -/
def okResponse : ResponseData :=
  { requestId := "GetTile 0 0 0", responseCode := 200, resposeData := some "iVBORw0KGgo=",
    error := none }

/-- A response for a tile nobody asked for. -/
def strayResponse : ResponseData :=
  { requestId := "GetTile 9 9 9", responseCode := 200, resposeData := some "iVBORw0KGgo=",
    error := none }

/-- The pending request of context 1 in `onePending` and `twoPending`. -/
def firstRequest : Request :=
  { context := tileContext 1 0 0 0, timeoutId := 1, level := 0, x := 0, y := 0,
    timestamp := 1000 }

/-- The pending request of context 2 in `twoPending`. -/
def secondRequest : Request :=
  { context := tileContext 2 0 0 0, timeoutId := 2, level := 0, x := 0, y := 0,
    timestamp := 1000 }

/-- A run that resolves two requests in every way the tile source knows. -/
def mixedRun : List Event :=
  [Event.start (tileContext 1 0 0 0) SendOutcome.sent,
    Event.start (tileContext 2 0 0 0) (SendOutcome.threw "closed"),
    Event.start (tileContext 3 2 1 1) SendOutcome.sent,
    Event.response okResponse, Event.image 0 true, Event.timeout 3, Event.timeout 1,
    Event.clear, Event.abort (tileContext 1 0 0 0), Event.response okResponse]

/-- A run of accepted starts, a matched success response, a timeout and an image failure. -/
def countedRun : List Event :=
  [Event.start (tileContext 1 0 0 0) SendOutcome.sent,
    Event.start (tileContext 2 2 1 1) SendOutcome.sent,
    Event.response okResponse, Event.clock 1200, Event.timeout 2, Event.image 0 false]

/-- The run `countedRun` followed by a start, an abort, another start and a teardown. -/
def boundedRun : List Event :=
  countedRun ++
    [Event.start (tileContext 3 1 0 0) SendOutcome.sent, Event.abort (tileContext 3 1 0 0),
      Event.start (tileContext 4 1 0 1) SendOutcome.sent, Event.clear]

/-- A matched response that reports a remote error. -/
def errorResponse : ResponseData :=
  { requestId := "GetTile 0 0 0", responseCode := 500, resposeData := none, error := none }

/-- A matched response with code 200 and no payload. -/
def emptyResponse : ResponseData :=
  { requestId := "GetTile 0 0 0", responseCode := 200, resposeData := none, error := none }

/-- A context whose `src` is not a tile identifier. -/
def badContext : Context := { ref := 5, src := "tile/1/2/3" }

/-- A tile source built without a transport instance. -/
def offlineSource : State :=
  construct { wiredOptions with sdpcRtc := false } 1000 true

/-! ## Request id sequences, identifier patterns, observations and rates -/

/-- Successive calls of `_generateRequestId` on one instance; the list gives the clock reading
at each call. -/
def generateRequestIds : State → List Nat → List String
  | _, [] => []
  | s, t :: ts =>
    (_generateRequestId { s with now := t }).1 ::
      generateRequestIds (_generateRequestId { s with now := t }).2 ts

/-- A non-empty run of decimal digits: a non-negative decimal integer as text. -/
def IsDigits (g : List Char) : Prop := g ≠ [] ∧ ∀ c ∈ g, c.isDigit = true

/-- The documented identifier form, in the words of the specification: exactly
`webrtc://tile/<level>/<x>/<y>` with three non-negative decimal integers. -/
def IsTileIdentifier (cs : List Char) : Prop :=
  ∃ g1 g2 g3, IsDigits g1 ∧ IsDigits g2 ∧ IsDigits g3 ∧
    cs = "webrtc://tile/".toList ++ (g1 ++ ("/".toList ++ (g2 ++ ("/".toList ++ g3))))

/-- A text that contains the documented identifier form somewhere, with any characters before
and after it. -/
def ContainsTileIdentifier (cs : List Char) : Prop :=
  ∃ before g1 g2 g3 rest, IsDigits g1 ∧ IsDigits g2 ∧ IsDigits g3 ∧
    cs = before ++ ("webrtc://tile/".toList ++ (g1 ++ ("/".toList ++ (g2 ++ ("/".toList ++
      (g3 ++ rest))))))

/-- The registry keys a sink observes when it is called, for an effect that is a sink call. -/
def sinkRegistry : Effect → Option (List String)
  | Effect.fail _ _ registry => some registry
  | Effect.finish _ _ registry => some registry
  | _ => none

/-- Whether an effect is a call of `finish`. -/
def isFinish : Effect → Bool
  | Effect.finish _ _ _ => true
  | _ => false

/-- The computed property `successRate` before `toFixed(1)` formats it, with an exact
quotient. -/
def successRate (stats : Stats) : ℚ :=
  if stats.totalRequests = 0 then 0
  else (stats.successCount : ℚ) / (stats.totalRequests : ℚ) * 100

/-- A wired tile source whose request timeout is 200 ms. -/
def shortTimeoutSource : State :=
  construct { wiredOptions with requestTimeout := some 200 } 1000 true

/-- An identifier that merely contains the documented form. -/
def laxIdentifier : String := "xxwebrtc://tile/3/5/7abc"

/-- Whether an effect is the transport call `refreshSlice`. -/
def isSend : Effect → Bool
  | Effect.refreshSlice _ _ => true
  | _ => false

/-- Whether an effect is the outbound-request notification `onRequest`. -/
def isRequestNotice : Effect → Bool
  | Effect.onRequest _ => true
  | _ => false

/-- The short-timeout source after context 1 requested tile `(2, 1, 1)`. -/
def shortPending : State :=
  run shortTimeoutSource [Event.start (tileContext 1 2 1 1) SendOutcome.sent]

/-- The pending request of `shortPending`. -/
def shortRequest : Request :=
  { context := tileContext 1 2 1 1, timeoutId := 1, level := 2, x := 1, y := 1,
    timestamp := 1000 }

/-- The live timer of `shortPending`. -/
def shortTimer : Timer :=
  { id := 1, requestId := "req_1_1000", context := tileContext 1 2 1 1, delay := 200 }

/-- A pending request whose coordinate consists of integer Number values below `10 ^ 21`. -/
def IsPlainCoordinate (q : Request) : Prop :=
  IsPlainNumber q.level ∧ IsPlainNumber q.x ∧ IsPlainNumber q.y

/-- The source after context 1 requested tile `(2, 1, 1)` and contexts 2 and 3 both requested
tile `(0, 0, 0)`. -/
def mixedPending : State :=
  run demoSource [Event.start (tileContext 1 2 1 1) SendOutcome.sent,
    Event.start (tileContext 2 0 0 0) SendOutcome.sent,
    Event.start (tileContext 3 0 0 0) SendOutcome.sent]

/-- The pending request of context 1 in `mixedPending`, for tile `(2, 1, 1)`. -/
def otherTileRequest : Request :=
  { context := tileContext 1 2 1 1, timeoutId := 1, level := 2, x := 1, y := 1,
    timestamp := 1000 }

/-- The pending request of context 2 in `mixedPending`, for tile `(0, 0, 0)`. -/
def earlierRequest : Request :=
  { context := tileContext 2 0 0 0, timeoutId := 2, level := 0, x := 0, y := 0,
    timestamp := 1000 }

/-- The pending request of context 3 in `mixedPending`, for tile `(0, 0, 0)` again. -/
def laterRequest : Request :=
  { context := tileContext 3 0 0 0, timeoutId := 3, level := 0, x := 0, y := 0,
    timestamp := 1000 }

/-- A success response whose payload already is a data URL. -/
def dataUrlResponse : ResponseData :=
  { requestId := "GetTile 0 0 0", responseCode := 200,
    resposeData := some "data:image/png;base64,iVBORw0KGgo=", error := none }

/-! # Theorems -/

/-! ## Decimal numerals -/

theorem digitChar_isDigit (d : Nat) (h : d < 10) : (digitChar d).isDigit = true := by
  interval_cases d <;> decide

theorem digitValue_digitChar (d : Nat) (h : d < 10) : digitValue (digitChar d) = d := by
  interval_cases d <;> decide

theorem digitsValue_append_singleton (ds : List Char) (c : Char) :
    digitsValue (ds ++ [c]) = 10 * digitsValue ds + digitValue c := by
  simp [digitsValue, List.foldl_append]

theorem digitsValue_reverse (ds : List Char) : digitsValue ds.reverse = revValue ds := by
  induction ds with
  | nil => rfl
  | cons c cs ih =>
    rw [List.reverse_cons, digitsValue_append_singleton, ih, revValue]
    omega

theorem digitsRev_spec (fuel : Nat) :
    ∀ n, n < fuel →
      (∀ c ∈ digitsRev fuel n, c.isDigit = true) ∧ digitsRev fuel n ≠ [] ∧
        revValue (digitsRev fuel n) = n := by
  induction fuel with
  | zero => intro n h; omega
  | succ fuel ih =>
    intro n h
    unfold digitsRev
    by_cases hn : n < 10
    · simp only [hn, if_true]
      refine ⟨?_, by simp, ?_⟩
      · intro c hc
        rw [List.mem_singleton] at hc
        rw [hc]
        exact digitChar_isDigit n hn
      · simp [revValue, digitValue_digitChar n hn]
    · simp only [hn, if_false]
      have hlt : n / 10 < fuel := by omega
      obtain ⟨h1, _, h3⟩ := ih (n / 10) hlt
      refine ⟨?_, by simp, ?_⟩
      · intro c hc
        rcases List.mem_cons.mp hc with hc | hc
        · rw [hc]
          exact digitChar_isDigit _ (Nat.mod_lt _ (by omega))
        · exact h1 c hc
      · rw [revValue, h3, digitValue_digitChar _ (Nat.mod_lt _ (by omega))]
        omega

theorem decimalNumeral_digits (n : Nat) :
    ∀ c ∈ (decimalNumeral n).toList, c.isDigit = true := by
  intro c hc
  have h := (digitsRev_spec (n + 1) n (by omega)).1
  simp only [decimalNumeral, String.toList] at hc
  exact h c (List.mem_reverse.mp hc)

theorem decimalNumeral_ne_nil (n : Nat) : (decimalNumeral n).toList ≠ [] := by
  have h := (digitsRev_spec (n + 1) n (by omega)).2.1
  simp only [decimalNumeral, String.toList]
  simpa using h

theorem digitsValue_decimalNumeral (n : Nat) : digitsValue (decimalNumeral n).toList = n := by
  simp only [decimalNumeral, String.toList]
  rw [digitsValue_reverse]
  exact (digitsRev_spec (n + 1) n (by omega)).2.2

theorem decimalNumeral_injective (a b : Nat) (h : decimalNumeral a = decimalNumeral b) :
    a = b := by
  rw [← digitsValue_decimalNumeral a, ← digitsValue_decimalNumeral b, h]

/-! ## Number values -/

theorem digitsRev_length_bound (fuel : Nat) :
    ∀ n, n < fuel → n < 10 ^ (digitsRev fuel n).length := by
  induction fuel with
  | zero => intro n h; omega
  | succ fuel ih =>
    intro n h
    unfold digitsRev
    by_cases hn : n < 10
    · simp only [hn, if_true, List.length_singleton, pow_one]
    · simp only [hn, if_false, List.length_cons]
      have := ih (n / 10) (by omega)
      rw [pow_succ]
      omega

theorem digitsRev_length_le (fuel : Nat) :
    ∀ n m, n < fuel → 1 ≤ m → n < 10 ^ m → (digitsRev fuel n).length ≤ m := by
  induction fuel with
  | zero => intro n m h; omega
  | succ fuel ih =>
    intro n m h hm hlt
    unfold digitsRev
    by_cases hn : n < 10
    · simp only [hn, if_true, List.length_singleton]
      exact hm
    · simp only [hn, if_false, List.length_cons]
      obtain ⟨m2, rfl⟩ : ∃ m2, m = m2 + 1 := ⟨m - 1, by omega⟩
      have hm2 : 1 ≤ m2 := by
        rcases Nat.eq_zero_or_pos m2 with h0 | h0
        · subst h0
          simp at hlt
          omega
        · exact h0
      have hdiv : n / 10 < 10 ^ m2 := by
        rw [pow_succ] at hlt
        omega
      have := ih (n / 10) m2 (by omega) hm2 hdiv
      omega

theorem shortestFrom_spec (len v : Nat) (hv : roundToDouble v = v) (hlen : v < 10 ^ len) :
    ∀ fuel k, k + fuel = len + 1 →
      roundToDouble (shortestFrom fuel k len v) = v ∧ shortestFrom fuel k len v ≤ 10 ^ len := by
  intro fuel
  induction fuel with
  | zero => intro k _; exact ⟨hv, le_of_lt hlen⟩
  | succ fuel ih =>
    intro k hk
    have hkl : k ≤ len := by omega
    have hp : 10 ^ len = 10 ^ k * 10 ^ (len - k) := by
      rw [← pow_add]
      congr 1
      omega
    have hlo : v / 10 ^ (len - k) * 10 ^ (len - k) ≤ 10 ^ len :=
      le_trans (Nat.div_mul_le_self _ _) (le_of_lt hlen)
    have hhi : v / 10 ^ (len - k) * 10 ^ (len - k) + 10 ^ (len - k) ≤ 10 ^ len := by
      have hdiv : v / 10 ^ (len - k) < 10 ^ k := by
        apply Nat.div_lt_of_lt_mul
        rw [mul_comm, ← hp]
        exact hlen
      calc v / 10 ^ (len - k) * 10 ^ (len - k) + 10 ^ (len - k)
          = (v / 10 ^ (len - k) + 1) * 10 ^ (len - k) := by ring
        _ ≤ 10 ^ k * 10 ^ (len - k) := Nat.mul_le_mul_right _ hdiv
        _ = 10 ^ len := hp.symm
    unfold shortestFrom
    simp only
    split
    · rename_i h1
      split
      · rename_i h2
        split
        · exact ⟨h1, hlo⟩
        · split
          · exact ⟨h2, hhi⟩
          · split
            · exact ⟨h1, hlo⟩
            · exact ⟨h2, hhi⟩
      · exact ⟨h1, hlo⟩
    · split
      · rename_i h2
        exact ⟨h2, hhi⟩
      · exact ih (k + 1) (by omega)

theorem roundToDouble_limit : roundToDouble (10 ^ 21) = 10 ^ 21 := by decide

theorem shortestDecimal_plain (v : Nat) (h : IsPlainNumber v) :
    roundToDouble (shortestDecimal v) = v ∧ shortestDecimal v < 10 ^ 21 := by
  obtain ⟨hv, hlt⟩ := h
  have hlen := digitsRev_length_bound (v + 1) v (by omega)
  have hle := digitsRev_length_le (v + 1) v 21 (by omega) (by omega) hlt
  obtain ⟨h1, h2⟩ := shortestFrom_spec (digitsRev (v + 1) v).length v hv hlen
    (digitsRev (v + 1) v).length 1 (by omega)
  refine ⟨h1, ?_⟩
  have hpow : 10 ^ (digitsRev (v + 1) v).length ≤ 10 ^ 21 :=
    Nat.pow_le_pow_right (by omega) hle
  have hle21 : shortestDecimal v ≤ 10 ^ 21 := le_trans h2 hpow
  rcases Nat.lt_or_ge (shortestDecimal v) (10 ^ 21) with hc | hc
  · exact hc
  · have e : shortestDecimal v = 10 ^ 21 := le_antisymm hle21 hc
    have h3 : roundToDouble (shortestDecimal v) = v := h1
    rw [e, roundToDouble_limit] at h3
    omega

theorem numberToString_plain (v : Nat) (h : IsPlainNumber v) :
    numberToString v = decimalNumeral (shortestDecimal v) := by
  have hinf : ¬ infinity ≤ v := by
    have : (10 : Nat) ^ 21 < infinity := by decide
    have := h.2
    omega
  unfold numberToString
  rw [if_neg hinf, if_pos (shortestDecimal_plain v h).2]

theorem numberToString_digits (v : Nat) (h : IsPlainNumber v) :
    ∀ c ∈ (numberToString v).toList, c.isDigit = true := by
  rw [numberToString_plain v h]
  exact decimalNumeral_digits _

theorem numberToString_ne_nil (v : Nat) (h : IsPlainNumber v) :
    (numberToString v).toList ≠ [] := by
  rw [numberToString_plain v h]
  exact decimalNumeral_ne_nil _

theorem parseInt_numberToString (v : Nat) (h : IsPlainNumber v) :
    parseInt (numberToString v).toList = v := by
  rw [numberToString_plain v h]
  unfold parseInt
  rw [digitsValue_decimalNumeral]
  exact (shortestDecimal_plain v h).1

theorem numberToString_injective (a b : Nat) (ha : IsPlainNumber a) (hb : IsPlainNumber b)
    (h : numberToString a = numberToString b) : a = b := by
  rw [← parseInt_numberToString a ha, ← parseInt_numberToString b hb, h]

/-! ## Matching the identifier pattern -/

theorem dropLiteral_append (lit rest : List Char) : dropLiteral lit (lit ++ rest) = some rest := by
  induction lit with
  | nil => rfl
  | cons l ls ih => simp [dropLiteral, ih]

theorem takeWhile_digits_append (ds rest : List Char) (hds : ∀ c ∈ ds, c.isDigit = true)
    (hrest : ∀ c, rest.head? = some c → c.isDigit = false) :
    (ds ++ rest).takeWhile Char.isDigit = ds ∧ (ds ++ rest).dropWhile Char.isDigit = rest := by
  induction ds with
  | nil =>
    cases rest with
    | nil => simp
    | cons r rs =>
      have hr := hrest r rfl
      simp [List.takeWhile, List.dropWhile, hr]
  | cons d ds ih =>
    have hd := hds d (List.mem_cons_self _ _)
    have ih2 := ih (fun c hc => hds c (List.mem_cons_of_mem _ hc))
    simp [List.takeWhile, List.dropWhile, hd, ih2.1, ih2.2]

theorem digitGroup_append (ds rest : List Char) (hds : ∀ c ∈ ds, c.isDigit = true)
    (hne : ds ≠ []) (hrest : ∀ c, rest.head? = some c → c.isDigit = false) :
    digitGroup (ds ++ rest) = some (ds, rest) := by
  obtain ⟨h1, h2⟩ := takeWhile_digits_append ds rest hds hrest
  simp [digitGroup, h1, h2, hne]

theorem matchHere_encoded (g1 g2 g3 : List Char)
    (h1 : ∀ c ∈ g1, c.isDigit = true) (n1 : g1 ≠ [])
    (h2 : ∀ c ∈ g2, c.isDigit = true) (n2 : g2 ≠ [])
    (h3 : ∀ c ∈ g3, c.isDigit = true) (n3 : g3 ≠ []) :
    matchHere ("webrtc://tile/".toList ++ (g1 ++ ("/".toList ++ (g2 ++ ("/".toList ++ (g3 ++ []))))))
      = some (g1, g2, g3) := by
  have e3 : digitGroup (g3 ++ []) = some (g3, []) :=
    digitGroup_append g3 [] h3 n3 (by simp)
  have e2 : digitGroup (g2 ++ ("/".toList ++ (g3 ++ []))) = some (g2, "/".toList ++ (g3 ++ [])) :=
    digitGroup_append g2 _ h2 n2 (by intro c hc; simp at hc; rw [← hc]; decide)
  have e1 : digitGroup (g1 ++ ("/".toList ++ (g2 ++ ("/".toList ++ (g3 ++ [])))))
      = some (g1, "/".toList ++ (g2 ++ ("/".toList ++ (g3 ++ [])))) :=
    digitGroup_append g1 _ h1 n1 (by intro c hc; simp at hc; rw [← hc]; decide)
  unfold matchHere
  rw [dropLiteral_append]
  simp only [e1, dropLiteral_append, e2, e3]

theorem regexSearch_of_matchHere (cs : List Char) (m : List Char × List Char × List Char)
    (h : matchHere cs = some m) : regexSearch cs = some m := by
  cases cs with
  | nil => simpa [regexSearch] using h
  | cons c cs => simp [regexSearch, h]

theorem getTileUrl_toList (level x y : Nat) :
    (getTileUrl level x y).toList =
      "webrtc://tile/".toList ++ ((numberToString level).toList ++ ("/".toList ++
        ((numberToString x).toList ++ ("/".toList ++ ((numberToString y).toList ++ []))))) := by
  simp [getTileUrl, String.toList, String.data_append]

/-- C1, as the code has it: for all non-negative integer Number values `level`, `x` and `y`
below `10 ^ 21`, parsing the identifier built by `getTileUrl` does not return `null` and gives
back the coordinate `(level, x, y)`. -/
theorem parseTileUrl_getTileUrl (level x y : Nat) (hl : IsPlainNumber level)
    (hx : IsPlainNumber x) (hy : IsPlainNumber y) :
    _parseTileUrl (getTileUrl level x y) = some { level := level, x := x, y := y } := by
  have h := matchHere_encoded (numberToString level).toList (numberToString x).toList
    (numberToString y).toList
    (numberToString_digits level hl) (numberToString_ne_nil level hl)
    (numberToString_digits x hx) (numberToString_ne_nil x hx)
    (numberToString_digits y hy) (numberToString_ne_nil y hy)
  rw [← getTileUrl_toList] at h
  have hs := regexSearch_of_matchHere _ _ h
  simp only [_parseTileUrl, hs, parseInt_numberToString _ hl, parseInt_numberToString _ hx,
    parseInt_numberToString _ hy]

theorem parseTileUrl_getTileUrl_witness :
    (IsPlainNumber 3 ∧ IsPlainNumber 5 ∧ IsPlainNumber 7 ∧ IsPlainNumber (2 ^ 60)) ∧
    _parseTileUrl (getTileUrl 3 5 7) = some { level := 3, x := 5, y := 7 } ∧
    _parseTileUrl (getTileUrl (2 ^ 60) 5 7) = some { level := 2 ^ 60, x := 5, y := 7 } ∧
    getTileUrl 3 5 7 = "webrtc://tile/3/5/7" ∧
    getTileUrl (2 ^ 60) 5 7 = "webrtc://tile/1152921504606847000/5/7" :=
  have h3 : IsPlainNumber 3 := ⟨by decide, by decide⟩
  have h5 : IsPlainNumber 5 := ⟨by decide, by decide⟩
  have h7 : IsPlainNumber 7 := ⟨by decide, by decide⟩
  have hb : IsPlainNumber (2 ^ 60) := ⟨by decide, by decide⟩
  ⟨⟨h3, h5, h7, hb⟩, parseTileUrl_getTileUrl 3 5 7 h3 h5 h7,
    parseTileUrl_getTileUrl (2 ^ 60) 5 7 hb h5 h7, by decide, by decide⟩

/-- C1 fails as stated: `10 ^ 21` is an integer Number value, the template literal of
`getTileUrl` writes it in exponent notation, and `_parseTileUrl` returns `null` for the
identifier. -/
theorem exponent_identifier_rejected :
    roundToDouble (10 ^ 21) = 10 ^ 21 ∧
    getTileUrl (10 ^ 21) 0 0 = "webrtc://tile/1e+21/0/0" ∧
    _parseTileUrl (getTileUrl (10 ^ 21) 0 0) = none := by
  decide

/-! ## The pending-request map -/

theorem mapSet_fresh (k : String) (v : Request) (m : List (String × Request))
    (h : k ∉ m.map Prod.fst) : mapSet k v m = m ++ [(k, v)] := by
  induction m with
  | nil => rfl
  | cons p m ih =>
    have hp : p.1 ≠ k := fun e => h (by simp [e])
    have hm : k ∉ m.map Prod.fst := fun e => h (by simp [e])
    simp [mapSet, hp, ih hm]

theorem mapDelete_fresh (k : String) (m : List (String × Request))
    (h : k ∉ m.map Prod.fst) : mapDelete k m = m := by
  unfold mapDelete
  rw [List.filter_eq_self]
  intro p hp
  have : p.1 ≠ k := fun e => h (e ▸ List.mem_map_of_mem Prod.fst hp)
  simpa using this

theorem mapDelete_middle (k : String) (q : Request) (pre post : List (String × Request))
    (h : ((pre ++ (k, q) :: post).map Prod.fst).Nodup) :
    mapDelete k (pre ++ (k, q) :: post) = pre ++ post := by
  rw [List.map_append, List.map_cons, List.nodup_middle, List.nodup_cons] at h
  have hk : k ∉ (pre ++ post).map Prod.fst := by simpa using h.1
  have h2 := mapDelete_fresh k (pre ++ post) hk
  unfold mapDelete at h2 ⊢
  rw [List.filter_append] at h2 ⊢
  rw [List.filter_cons]
  simpa using h2

theorem mem_mapDelete (k : String) (m : List (String × Request)) (p : String × Request) :
    p ∈ mapDelete k m ↔ p ∈ m ∧ p.1 ≠ k := by
  simp [mapDelete]

theorem mapDelete_keys_nodup (k : String) (m : List (String × Request))
    (h : (m.map Prod.fst).Nodup) : ((mapDelete k m).map Prod.fst).Nodup := by
  unfold mapDelete
  exact h.sublist ((List.filter_sublist m).map Prod.fst)

theorem registry_entry_unique (m : List (String × Request)) (h : (m.map Prod.fst).Nodup)
    (k : String) (q q2 : Request) (h1 : (k, q) ∈ m) (h2 : (k, q2) ∈ m) : q = q2 := by
  induction m with
  | nil => simp at h1
  | cons p m ih =>
    rw [List.map_cons, List.nodup_cons] at h
    rcases List.mem_cons.mp h1 with e1 | e1 <;> rcases List.mem_cons.mp h2 with e2 | e2
    · rw [← e1] at e2
      exact (Prod.mk.inj e2).2.symm
    · exact absurd (List.mem_map_of_mem Prod.fst e2) (by have := h.1; rw [← e1] at this; exact this)
    · exact absurd (List.mem_map_of_mem Prod.fst e1) (by have := h.1; rw [← e2] at this; exact this)
    · exact ih h.2 e1 e2

theorem countP_filter_removed {α : Type} (P keep : α → Bool) (l : List α) (x : α)
    (hx : x ∈ l) (hk : keep x = false) :
    (l.filter keep).countP P + (if P x then 1 else 0) ≤ l.countP P := by
  induction l with
  | nil => simp at hx
  | cons a l ih =>
    rcases List.mem_cons.mp hx with e | e
    · subst e
      have := List.countP_mono_left (p := fun y => P y && keep y) (q := P) (l := l)
        (by intro y _ hy; simp at hy; exact hy.1)
      rw [List.filter_cons, hk, List.countP_cons]
      simp only [Bool.false_eq_true, if_false]
      have h2 := List.countP_filter (p := P) (q := keep) l
      rw [h2]
      omega
    · have := ih e
      rw [List.filter_cons, List.countP_cons]
      split
      · rw [List.countP_cons]; omega
      · omega

/-! ## Effects of the helper methods -/

theorem triggerError_fields (s : State) (error : String) :
    (_triggerError s error).pendingRequests = s.pendingRequests ∧
    (_triggerError s error).timers = s.timers ∧
    (_triggerError s error).images = s.images ∧
    (_triggerError s error).requestCounter = s.requestCounter ∧
    (_triggerError s error).trace =
      s.trace ++ (if s.onError then [Effect.onError error] else []) := by
  cases ho : s.onError <;> simp [_triggerError, ho, handleTileError, emit]

theorem triggerRequest_fields (s : State) (data : RequestData) :
    (_triggerRequest s data).pendingRequests = s.pendingRequests ∧
    (_triggerRequest s data).timers = s.timers ∧
    (_triggerRequest s data).images = s.images ∧
    (_triggerRequest s data).requestCounter = s.requestCounter ∧
    (_triggerRequest s data).trace =
      s.trace ++ (if s.onRequest then [Effect.onRequest data] else []) := by
  cases ho : s.onRequest <;> simp [_triggerRequest, ho, handleTileRequest, emit]

theorem triggerResponse_fields (s : State) (r : ResponseData) (q : Request) :
    (_triggerResponse s r q).pendingRequests = s.pendingRequests ∧
    (_triggerResponse s r q).timers = s.timers ∧
    (_triggerResponse s r q).images = s.images ∧
    (_triggerResponse s r q).requestCounter = s.requestCounter ∧
    (_triggerResponse s r q).nextImage = s.nextImage ∧
    (_triggerResponse s r q).onError = s.onError ∧
    (_triggerResponse s r q).trace =
      s.trace ++ (if s.onResponse then [Effect.onResponse r q] else []) := by
  cases ho : s.onResponse <;> simp [_triggerResponse, ho, handleTileResponse, emit]

/-! ## Effects of the public methods -/

theorem handleResponse_found (s : State) (r : ResponseData) (k : String) (q : Request)
    (hf : s.pendingRequests.find? (fun p => r.requestId == expectedResponseId p.2) = some (k, q)) :
    (handleResponse s r).pendingRequests = mapDelete k s.pendingRequests ∧
    (handleResponse s r).timers = s.timers.filter (fun t => t.id != q.timeoutId) ∧
    (handleResponse s r).requestCounter = s.requestCounter ∧
    ((r.responseCode = 200 ∧ truthy r.resposeData = true) →
      ∃ src, (handleResponse s r).images =
          s.images ++ [{ id := s.nextImage, src := src, context := q.context }] ∧
        (handleResponse s r).trace = s.trace ++ (Effect.clearTimeout q.timeoutId ::
          ((if s.onResponse then [Effect.onResponse r q] else []) ++
            [Effect.imageSrc s.nextImage src]))) ∧
    (¬ (r.responseCode = 200 ∧ truthy r.resposeData = true) →
      ∃ msg, (handleResponse s r).images = s.images ∧
        (handleResponse s r).trace = s.trace ++ (Effect.clearTimeout q.timeoutId ::
          ((if s.onResponse then [Effect.onResponse r q] else []) ++
            (Effect.fail q.context msg ((mapDelete k s.pendingRequests).map Prod.fst) ::
              (if s.onError then [Effect.onError msg] else []))))) := by
  unfold handleResponse
  rw [hf]
  by_cases hok : r.responseCode = 200 ∧ truthy r.resposeData = true
  · simp only [hok, and_self, if_true, not_true_eq_false, false_implies, and_true, true_implies]
    cases ho : s.onResponse <;>
      simp [_triggerResponse, ho, handleTileResponse, emit, clearTimeout, _loadImageFromBase64]
  · simp only [hok, if_false, false_implies, not_false_eq_true, true_implies, true_and]
    cases ho : s.onResponse <;> cases he : s.onError <;>
      simp [_triggerResponse, _triggerError, ho, he, handleTileResponse, handleTileError, emit,
        clearTimeout, contextFail, registryKeys]

theorem downloadTileAbort_found (s : State) (c : Context) (k : String) (q : Request)
    (hf : s.pendingRequests.find? (fun p => p.2.context.ref == c.ref) = some (k, q)) :
    downloadTileAbort s c =
      { s with
        pendingRequests := mapDelete k s.pendingRequests
        timers := s.timers.filter (fun t => t.id != q.timeoutId)
        trace := s.trace ++ [Effect.clearTimeout q.timeoutId] } := by
  unfold downloadTileAbort
  rw [hf]
  simp [clearTimeout, emit]

theorem downloadTileAbort_none (s : State) (c : Context)
    (hf : s.pendingRequests.find? (fun p => p.2.context.ref == c.ref) = none) :
    downloadTileAbort s c = s := by
  unfold downloadTileAbort
  rw [hf]

theorem fireTimeout_found (s : State) (id : Nat) (t : Timer)
    (hf : s.timers.find? (fun u => u.id == id) = some t) :
    (fireTimeout s id).pendingRequests = mapDelete t.requestId s.pendingRequests ∧
    (fireTimeout s id).timers = s.timers.filter (fun u => u.id != id) ∧
    (fireTimeout s id).images = s.images ∧
    (fireTimeout s id).requestCounter = s.requestCounter ∧
    (fireTimeout s id).trace = s.trace ++
      (Effect.fail t.context ("Request timeout: " ++ t.requestId)
          ((mapDelete t.requestId s.pendingRequests).map Prod.fst) ::
        (if s.onError then [Effect.onError ("Request timeout: " ++ t.requestId)] else [])) := by
  unfold fireTimeout
  rw [hf]
  cases he : s.onError <;>
    simp [_triggerError, he, handleTileError, emit, contextFail, registryKeys]

theorem fireTimeout_none (s : State) (id : Nat)
    (hf : s.timers.find? (fun u => u.id == id) = none) : fireTimeout s id = s := by
  unfold fireTimeout
  rw [hf]

theorem imageSettled_found (s : State) (id : Nat) (loaded : Bool) (i : ImageLoad)
    (hf : s.images.find? (fun j => j.id == id) = some i) :
    imageSettled s id loaded =
      { s with
        images := s.images.filter (fun j => j.id != id)
        trace := s.trace ++
          [if loaded then Effect.finish i.context i.id (registryKeys s)
           else Effect.fail i.context "Failed to load base64 image" (registryKeys s)] } := by
  unfold imageSettled
  rw [hf]
  cases loaded <;> simp [contextFinish, contextFail, emit, registryKeys]

theorem imageSettled_none (s : State) (id : Nat) (loaded : Bool)
    (hf : s.images.find? (fun j => j.id == id) = none) : imageSettled s id loaded = s := by
  unfold imageSettled
  rw [hf]

/-- The effects of the loop of `clearPendingRequests` over the entries `entries`, when the
callbacks observe the registry keys `keys`. -/
theorem clear_loop (entries : List (String × Request)) :
    ∀ s : State,
      entries.foldl
          (fun acc p => contextFail (clearTimeout acc p.2.timeoutId) p.2.context
            "Request cancelled") s =
        { s with
          timers := s.timers.filter
            (fun t => entries.all (fun p => t.id != p.2.timeoutId))
          trace := s.trace ++ (entries.map (fun p =>
            [Effect.clearTimeout p.2.timeoutId,
              Effect.fail p.2.context "Request cancelled" (registryKeys s)])).flatten } := by
  induction entries with
  | nil => intro s; simp
  | cons p ps ih =>
    intro s
    rw [List.foldl_cons, ih]
    simp [contextFail, clearTimeout, emit, registryKeys, List.filter_filter, Bool.and_comm]

theorem clearPendingRequests_eq (s : State) :
    clearPendingRequests s =
      { s with
        pendingRequests := []
        timers := s.timers.filter
          (fun t => s.pendingRequests.all (fun p => t.id != p.2.timeoutId))
        trace := s.trace ++ (s.pendingRequests.map (fun p =>
          [Effect.clearTimeout p.2.timeoutId,
            Effect.fail p.2.context "Request cancelled" (registryKeys s)])).flatten } := by
  unfold clearPendingRequests
  rw [clear_loop]

theorem mapGet_append_fresh (k : String) (q : Request) (m : List (String × Request))
    (h : k ∉ m.map Prod.fst) : mapGet k (m ++ [(k, q)]) = some q := by
  have hn : m.find? (fun p => p.1 == k) = none := by
    rw [List.find?_eq_none]
    intro p hp e
    exact h (by simp at e; exact e ▸ List.mem_map_of_mem Prod.fst hp)
  simp [mapGet, List.find?_append, hn]

theorem mapDelete_append_fresh (k : String) (q : Request) (m : List (String × Request))
    (h : k ∉ m.map Prod.fst) : mapDelete k (m ++ [(k, q)]) = m := by
  have h2 := mapDelete_fresh k m h
  unfold mapDelete at h2 ⊢
  rw [List.filter_append, h2]
  simp

theorem downloadTileStart_accepted (s : State) (c : Context) (send : SendOutcome)
    (tc : TileCoords)
    (h1 : s.sdpcRtc = true) (h2 : truthy s.channelName = true)
    (h3 : _parseTileUrl c.src = some tc)
    (hfresh : requestIdFor (s.requestCounter + 1) s.now ∉ registryKeys s) :
    (downloadTileStart s c send).requestCounter = s.requestCounter + 1 ∧
    (downloadTileStart s c send).images = s.images ∧
    (send = SendOutcome.sent →
      (downloadTileStart s c send).pendingRequests = s.pendingRequests ++
        [(requestIdFor (s.requestCounter + 1) s.now,
          { context := c, timeoutId := s.nextTimer, level := tc.level, x := tc.x, y := tc.y,
            timestamp := s.now })] ∧
      (downloadTileStart s c send).timers = s.timers ++
        [{ id := s.nextTimer, requestId := requestIdFor (s.requestCounter + 1) s.now,
           context := c, delay := s.requestTimeout }] ∧
      (downloadTileStart s c send).trace = s.trace ++
        (Effect.setTimeout s.nextTimer s.requestTimeout ::
          Effect.refreshSlice (s.channelName.getD "")
            { RequestId := requestIdFor (s.requestCounter + 1) s.now, Method := "GetTile",
              IdNo := s.sdpcId, Level := tc.level, X := tc.x, Y := tc.y, ColorMd5 := "" } ::
          (if s.onRequest then
            [Effect.onRequest
              { RequestId := requestIdFor (s.requestCounter + 1) s.now, Method := "GetTile",
                IdNo := s.sdpcId, Level := tc.level, X := tc.x, Y := tc.y, ColorMd5 := "" }]
           else []))) ∧
    (∀ message, send = SendOutcome.threw message →
      (downloadTileStart s c send).pendingRequests = s.pendingRequests ∧
      (downloadTileStart s c send).timers = s.timers.filter (fun t => t.id != s.nextTimer) ∧
      (downloadTileStart s c send).trace = s.trace ++
        (Effect.setTimeout s.nextTimer s.requestTimeout ::
          Effect.refreshSlice (s.channelName.getD "")
            { RequestId := requestIdFor (s.requestCounter + 1) s.now, Method := "GetTile",
              IdNo := s.sdpcId, Level := tc.level, X := tc.x, Y := tc.y, ColorMd5 := "" } ::
          Effect.clearTimeout s.nextTimer ::
          Effect.fail c ("Send failed: " ++ message) (registryKeys s) ::
          (if s.onError then [Effect.onError ("Send failed: " ++ message)] else []))) := by
  have hg : (!s.sdpcRtc || !truthy s.channelName) = false := by simp [h1, h2]
  have hfresh2 : requestIdFor (s.requestCounter + 1) s.now ∉ s.pendingRequests.map Prod.fst :=
    hfresh
  unfold downloadTileStart
  rw [hg, h3]
  simp only [Bool.false_eq_true, if_false, _generateRequestId, setTimeout, emit,
    mapSet_fresh _ _ _ hfresh2]
  cases send with
  | sent =>
    cases ho : s.onRequest <;>
      simp [_sendSdpcRtcRequest, _triggerRequest, ho, handleTileRequest, emit]
  | threw message =>
    cases he : s.onError <;>
      simp [_sendSdpcRtcRequest, _triggerError, he, handleTileError, emit,
        mapGet_append_fresh _ _ _ hfresh2, mapDelete_append_fresh _ _ _ hfresh2, clearTimeout,
        contextFail, registryKeys]

/-! ## Request ids -/

theorem requestIdFor_counter_injective (a t b u : Nat)
    (h : requestIdFor a t = requestIdFor b u) : a = b := by
  have h2 := congrArg String.toList h
  simp only [requestIdFor, String.toList, String.data_append] at h2
  have h3 : (decimalNumeral a).data ++ ("_".data ++ (decimalNumeral t).data) =
      (decimalNumeral b).data ++ ("_".data ++ (decimalNumeral u).data) := by
    simpa [List.append_assoc] using h2
  have ha := (takeWhile_digits_append (decimalNumeral a).data
    ("_".data ++ (decimalNumeral t).data) (decimalNumeral_digits a)
    (by intro c hc; simp at hc; rw [← hc]; decide)).1
  have hb := (takeWhile_digits_append (decimalNumeral b).data
    ("_".data ++ (decimalNumeral u).data) (decimalNumeral_digits b)
    (by intro c hc; simp at hc; rw [← hc]; decide)).1
  rw [h3, hb] at ha
  exact (decimalNumeral_injective a b (String.ext ha.symm))

/-! ## The representation invariant -/

theorem wellFormed_construct (options : Options) (now : Nat) (held : Bool) :
    WellFormed (construct options now held) := by
  simp [WellFormed, construct, registryKeys]

theorem wellFormed_of_fields (s s2 : State) (h : WellFormed s)
    (hp : s2.pendingRequests = s.pendingRequests) (ht : s2.timers = s.timers)
    (hc : s2.requestCounter = s.requestCounter) : WellFormed s2 := by
  unfold WellFormed registryKeys at *
  rw [hp, ht, hc]
  exact h

theorem wellFormed_remove (s s2 : State) (h : WellFormed s) (k : String) (q : Request)
    (hq : (k, q) ∈ s.pendingRequests)
    (hp : s2.pendingRequests = mapDelete k s.pendingRequests)
    (ht : ∀ t ∈ s2.timers, t ∈ s.timers ∧ t.id ≠ q.timeoutId)
    (hc : s2.requestCounter = s.requestCounter) : WellFormed s2 := by
  obtain ⟨hn, hk, htm⟩ := h
  unfold registryKeys at hn hk
  refine ⟨?_, ?_, ?_⟩
  · unfold registryKeys
    rw [hp]
    exact mapDelete_keys_nodup k _ hn
  · intro key hkey
    unfold registryKeys at hkey
    rw [hp] at hkey
    obtain ⟨p, hp1, hp2⟩ := List.mem_map.mp hkey
    have := hk key (hp2 ▸ List.mem_map_of_mem Prod.fst ((mem_mapDelete k _ p).mp hp1).1)
    rw [hc]
    exact this
  · intro t htin
    obtain ⟨ht1, ht2⟩ := ht t htin
    obtain ⟨q2, hq2, hid, hctx⟩ := htm t ht1
    refine ⟨q2, ?_, hid, hctx⟩
    rw [hp, mem_mapDelete]
    refine ⟨hq2, ?_⟩
    intro e
    have e2 : t.requestId = k := e
    rw [e2] at hq2
    have := registry_entry_unique _ hn k q q2 hq hq2
    rw [← this] at hid
    exact ht2 hid.symm

theorem downloadTileStart_rejected (s : State) (context : Context) (send : SendOutcome)
    (h : s.sdpcRtc = false ∨ truthy s.channelName = false ∨ _parseTileUrl context.src = none) :
    ∃ reason,
      (reason = "SdpcRtc instance or channel name not available" ∨
        reason = "Invalid tile URL format") ∧
      (downloadTileStart s context send).pendingRequests = s.pendingRequests ∧
      (downloadTileStart s context send).timers = s.timers ∧
      (downloadTileStart s context send).images = s.images ∧
      (downloadTileStart s context send).requestCounter = s.requestCounter ∧
      (downloadTileStart s context send).nextTimer = s.nextTimer ∧
      (downloadTileStart s context send).trace = s.trace ++
        (Effect.fail context reason (registryKeys s) ::
          (if s.onError then [Effect.onError reason] else [])) := by
  by_cases h1 : (!s.sdpcRtc || !truthy s.channelName) = true
  · refine ⟨_, Or.inl rfl, ?_⟩
    unfold downloadTileStart
    rw [if_pos h1]
    cases ho : s.onError <;>
      simp [_triggerError, ho, handleTileError, emit, contextFail, registryKeys]
  · have h2 : _parseTileUrl context.src = none := by
      rcases h with h | h | h
      · simp [h] at h1
      · simp [h] at h1
      · exact h
    refine ⟨_, Or.inr rfl, ?_⟩
    unfold downloadTileStart
    rw [if_neg h1, h2]
    cases ho : s.onError <;>
      simp [_triggerError, ho, handleTileError, emit, contextFail, registryKeys]

theorem start_cases (s : State) (context : Context) :
    (s.sdpcRtc = false ∨ truthy s.channelName = false ∨ _parseTileUrl context.src = none) ∨
    (s.sdpcRtc = true ∧ truthy s.channelName = true ∧
      ∃ tc, _parseTileUrl context.src = some tc) := by
  cases h1 : s.sdpcRtc
  · exact Or.inl (Or.inl rfl)
  · cases h2 : truthy s.channelName
    · exact Or.inl (Or.inr (Or.inl rfl))
    · cases h3 : _parseTileUrl context.src with
      | none => exact Or.inl (Or.inr (Or.inr rfl))
      | some tc => exact Or.inr ⟨rfl, rfl, tc, rfl⟩

theorem fresh_requestId (s : State) (h : WellFormed s) :
    requestIdFor (s.requestCounter + 1) s.now ∉ registryKeys s := by
  intro hin
  obtain ⟨n, t, hn, e⟩ := h.2.1 _ hin
  have := requestIdFor_counter_injective _ _ _ _ e
  omega

theorem wellFormed_start (s : State) (context : Context) (send : SendOutcome)
    (h : WellFormed s) : WellFormed (downloadTileStart s context send) := by
  rcases start_cases s context with hr | ⟨h1, h2, tc, h3⟩
  · obtain ⟨_, _, hp, ht, _, hc, _⟩ := downloadTileStart_rejected s context send hr
    exact wellFormed_of_fields s _ h hp ht hc
  · have hfresh := fresh_requestId s h
    obtain ⟨hc, _, hsent, hthrew⟩ := downloadTileStart_accepted s context send tc h1 h2 h3 hfresh
    obtain ⟨hn, hk, htm⟩ := h
    cases send with
    | sent =>
      obtain ⟨hp, ht, _⟩ := hsent rfl
      refine ⟨?_, ?_, ?_⟩
      · unfold registryKeys at hn hfresh ⊢
        rw [hp, List.map_append, List.nodup_append]
        refine ⟨hn, by simp, ?_⟩
        intro a ha hb
        simp at hb
        exact hfresh (hb ▸ ha)
      · intro key hkey
        unfold registryKeys at hkey hk
        rw [hp, List.map_append, List.mem_append] at hkey
        rw [hc]
        rcases hkey with hkey | hkey
        · obtain ⟨n, t, hle, e⟩ := hk key hkey
          exact ⟨n, t, by omega, e⟩
        · simp at hkey
          exact ⟨s.requestCounter + 1, s.now, le_refl _, hkey⟩
      · intro t htin
        rw [ht, List.mem_append] at htin
        rcases htin with htin | htin
        · obtain ⟨q, hq, hid, hctx⟩ := htm t htin
          exact ⟨q, by rw [hp]; exact List.mem_append_left _ hq, hid, hctx⟩
        · simp at htin
          subst htin
          exact ⟨_, by rw [hp]; exact List.mem_append_right _ (List.mem_singleton.mpr rfl),
            rfl, rfl⟩
    | threw message =>
      obtain ⟨hp, ht, _⟩ := hthrew message rfl
      refine ⟨?_, ?_, ?_⟩
      · unfold registryKeys at hn ⊢
        rw [hp]
        exact hn
      · intro key hkey
        unfold registryKeys at hkey hk
        rw [hp] at hkey
        rw [hc]
        obtain ⟨n, t, hle, e⟩ := hk key hkey
        exact ⟨n, t, by omega, e⟩
      · intro t htin
        rw [ht] at htin
        obtain ⟨q, hq, hid, hctx⟩ := htm t (List.mem_filter.mp htin).1
        exact ⟨q, by rw [hp]; exact hq, hid, hctx⟩

theorem wellFormed_abort (s : State) (context : Context) (h : WellFormed s) :
    WellFormed (downloadTileAbort s context) := by
  cases hf : s.pendingRequests.find? (fun p => p.2.context.ref == context.ref) with
  | none => rw [downloadTileAbort_none s context hf]; exact h
  | some p =>
    obtain ⟨k, q⟩ := p
    rw [downloadTileAbort_found s context k q hf]
    refine wellFormed_remove s _ h k q (List.mem_of_find?_eq_some hf) rfl ?_ rfl
    intro t ht
    simpa using ht

theorem wellFormed_response (s : State) (r : ResponseData) (h : WellFormed s) :
    WellFormed (handleResponse s r) := by
  cases hf : s.pendingRequests.find? (fun p => r.requestId == expectedResponseId p.2) with
  | none =>
    have e : handleResponse s r = _triggerError s ("Unknown response: " ++ r.requestId) := by
      unfold handleResponse
      rw [hf]
    rw [e]
    obtain ⟨hp, ht, _, hc, _⟩ := triggerError_fields s ("Unknown response: " ++ r.requestId)
    exact wellFormed_of_fields s _ h hp ht hc
  | some p =>
    obtain ⟨k, q⟩ := p
    obtain ⟨hp, ht, hc, _, _⟩ := handleResponse_found s r k q hf
    refine wellFormed_remove s _ h k q (List.mem_of_find?_eq_some hf) hp ?_ hc
    intro t htin
    rw [ht] at htin
    simpa using htin

theorem wellFormed_timeout (s : State) (id : Nat) (h : WellFormed s) :
    WellFormed (fireTimeout s id) := by
  cases hf : s.timers.find? (fun u => u.id == id) with
  | none => rw [fireTimeout_none s id hf]; exact h
  | some t =>
    obtain ⟨hp, ht, _, hc, _⟩ := fireTimeout_found s id t hf
    obtain ⟨q, hq, hid, _⟩ := h.2.2 t (List.mem_of_find?_eq_some hf)
    have hti : t.id = id := by simpa using List.find?_some hf
    refine wellFormed_remove s _ h t.requestId q hq hp ?_ hc
    intro u hu
    rw [ht] at hu
    rw [hid, hti]
    simpa using hu

theorem clear_timers_empty (s : State) (h : WellFormed s) :
    s.timers.filter (fun t => s.pendingRequests.all (fun p => t.id != p.2.timeoutId)) = [] := by
  rw [List.filter_eq_nil_iff]
  intro t ht hall
  obtain ⟨q, hq, hid, _⟩ := h.2.2 t ht
  rw [List.all_eq_true] at hall
  have := hall _ hq
  simp [hid] at this

theorem wellFormed_clear (s : State) (h : WellFormed s) :
    WellFormed (clearPendingRequests s) := by
  rw [clearPendingRequests_eq, clear_timers_empty s h]
  simp [WellFormed, registryKeys]

theorem wellFormed_image (s : State) (id : Nat) (loaded : Bool) (h : WellFormed s) :
    WellFormed (imageSettled s id loaded) := by
  cases hf : s.images.find? (fun j => j.id == id) with
  | none => rw [imageSettled_none s id loaded hf]; exact h
  | some i =>
    rw [imageSettled_found s id loaded i hf]
    exact wellFormed_of_fields s _ h rfl rfl rfl

theorem wellFormed_step (s : State) (e : Event) (h : WellFormed s) : WellFormed (step s e) := by
  cases e with
  | start context send => exact wellFormed_start s context send h
  | abort context => exact wellFormed_abort s context h
  | response r => exact wellFormed_response s r h
  | timeout id => exact wellFormed_timeout s id h
  | clear => exact wellFormed_clear s h
  | image id loaded => exact wellFormed_image s id loaded h
  | clock now => exact wellFormed_of_fields s _ h rfl rfl rfl

theorem wellFormed_run (events : List Event) :
    ∀ s, WellFormed s → WellFormed (run s events) := by
  induction events with
  | nil => intro s h; exact h
  | cons e es ih => intro s h; exact ih (step s e) (wellFormed_step s e h)

/-! ## Exclusive resolution -/

theorem terminalCount_append (c : Nat) (a b : List Effect) :
    terminalCount c (a ++ b) = terminalCount c a + terminalCount c b := by
  simp [terminalCount]

theorem resolution_start (s : State) (context : Context) (send : SendOutcome) (c : Nat)
    (h : WellFormed s) :
    resolutionCount c (downloadTileStart s context send) ≤
      resolutionCount c s + (if context.ref = c then 1 else 0) := by
  unfold resolutionCount pendingCount imageCount
  rcases start_cases s context with hr | ⟨h1, h2, tc, h3⟩
  · obtain ⟨reason, _, hp, _, hi, _, _, htr⟩ := downloadTileStart_rejected s context send hr
    rw [hp, hi, htr, terminalCount_append]
    cases s.onError <;> simp [terminalCount, List.countP_cons, isTerminalFor] <;> omega
  · have hfresh := fresh_requestId s h
    obtain ⟨_, hi, hsent, hthrew⟩ := downloadTileStart_accepted s context send tc h1 h2 h3 hfresh
    cases send with
    | sent =>
      obtain ⟨hp, _, htr⟩ := hsent rfl
      rw [hp, hi, htr, terminalCount_append]
      cases s.onRequest <;> simp [terminalCount, List.countP_cons, isTerminalFor] <;> omega
    | threw message =>
      obtain ⟨hp, _, htr⟩ := hthrew message rfl
      rw [hp, hi, htr, terminalCount_append]
      cases s.onError <;> simp [terminalCount, List.countP_cons, isTerminalFor] <;> omega

theorem pendingCount_mapDelete (c : Nat) (m : List (String × Request)) (k : String)
    (q : Request) (hq : (k, q) ∈ m) :
    (mapDelete k m).countP (fun p => p.2.context.ref == c) +
        (if q.context.ref = c then 1 else 0) ≤
      m.countP (fun p => p.2.context.ref == c) := by
  have := countP_filter_removed (fun p : String × Request => p.2.context.ref == c)
    (fun p => p.1 != k) m (k, q) hq (by simp)
  simpa [mapDelete] using this

theorem resolution_abort (s : State) (context : Context) (c : Nat) :
    resolutionCount c (downloadTileAbort s context) ≤ resolutionCount c s := by
  cases hf : s.pendingRequests.find? (fun p => p.2.context.ref == context.ref) with
  | none => rw [downloadTileAbort_none s context hf]
  | some p =>
    obtain ⟨k, q⟩ := p
    rw [downloadTileAbort_found s context k q hf]
    have := pendingCount_mapDelete c s.pendingRequests k q (List.mem_of_find?_eq_some hf)
    unfold resolutionCount pendingCount imageCount
    simp only [terminalCount_append]
    simp [terminalCount, isTerminalFor]
    omega

theorem resolution_response (s : State) (r : ResponseData) (c : Nat) :
    resolutionCount c (handleResponse s r) ≤ resolutionCount c s := by
  unfold resolutionCount pendingCount imageCount
  cases hf : s.pendingRequests.find? (fun p => r.requestId == expectedResponseId p.2) with
  | none =>
    have e : handleResponse s r = _triggerError s ("Unknown response: " ++ r.requestId) := by
      unfold handleResponse
      rw [hf]
    rw [e]
    obtain ⟨hp, _, hi, _, htr⟩ := triggerError_fields s ("Unknown response: " ++ r.requestId)
    rw [hp, hi, htr, terminalCount_append]
    cases s.onError <;> simp [terminalCount, isTerminalFor]
  | some p =>
    obtain ⟨k, q⟩ := p
    obtain ⟨hp, _, _, hok, hbad⟩ := handleResponse_found s r k q hf
    have hcount := pendingCount_mapDelete c s.pendingRequests k q (List.mem_of_find?_eq_some hf)
    rw [hp]
    by_cases h200 : r.responseCode = 200 ∧ truthy r.resposeData = true
    · obtain ⟨src, hi, htr⟩ := hok h200
      rw [hi, htr, terminalCount_append]
      cases s.onResponse <;>
        simp [terminalCount, List.countP_cons, isTerminalFor] <;> omega
    · obtain ⟨msg, hi, htr⟩ := hbad h200
      rw [hi, htr, terminalCount_append]
      cases s.onResponse <;> cases s.onError <;>
        simp [terminalCount, List.countP_cons, isTerminalFor] <;> omega

theorem resolution_timeout (s : State) (id : Nat) (c : Nat) (h : WellFormed s) :
    resolutionCount c (fireTimeout s id) ≤ resolutionCount c s := by
  cases hf : s.timers.find? (fun u => u.id == id) with
  | none => rw [fireTimeout_none s id hf]
  | some t =>
    obtain ⟨hp, _, hi, _, htr⟩ := fireTimeout_found s id t hf
    obtain ⟨q, hq, _, hctx⟩ := h.2.2 t (List.mem_of_find?_eq_some hf)
    have hcount := pendingCount_mapDelete c s.pendingRequests t.requestId q hq
    rw [hctx] at hcount
    unfold resolutionCount pendingCount imageCount
    rw [hp, hi, htr, terminalCount_append]
    cases s.onError <;> simp [terminalCount, List.countP_cons, isTerminalFor] <;> omega

theorem terminalCount_cancelled (c : Nat) (keys : List String)
    (entries : List (String × Request)) :
    terminalCount c (entries.map (fun p =>
        [Effect.clearTimeout p.2.timeoutId,
          Effect.fail p.2.context "Request cancelled" keys])).flatten =
      entries.countP (fun p => p.2.context.ref == c) := by
  induction entries with
  | nil => rfl
  | cons p ps ih =>
    rw [List.map_cons, List.flatten_cons, terminalCount_append, ih, List.countP_cons]
    simp [terminalCount, List.countP_cons, isTerminalFor]
    omega

theorem resolution_clear (s : State) (c : Nat) :
    resolutionCount c (clearPendingRequests s) ≤ resolutionCount c s := by
  rw [clearPendingRequests_eq]
  unfold resolutionCount pendingCount imageCount
  simp only [terminalCount_append, terminalCount_cancelled]
  simp

theorem resolution_image (s : State) (id : Nat) (loaded : Bool) (c : Nat) :
    resolutionCount c (imageSettled s id loaded) ≤ resolutionCount c s := by
  cases hf : s.images.find? (fun j => j.id == id) with
  | none => rw [imageSettled_none s id loaded hf]
  | some i =>
    rw [imageSettled_found s id loaded i hf]
    have hid : i.id = id := by simpa using List.find?_some hf
    have := countP_filter_removed (fun j : ImageLoad => j.context.ref == c)
      (fun j => j.id != id) s.images i (List.mem_of_find?_eq_some hf) (by simp [hid])
    unfold resolutionCount pendingCount imageCount
    simp only [terminalCount_append]
    cases loaded <;> simp [terminalCount, List.countP_cons, isTerminalFor] <;>
      simp at this <;> omega

theorem resolution_step (s : State) (e : Event) (c : Nat) (h : WellFormed s) :
    resolutionCount c (step s e) ≤ resolutionCount c s + (startedRefs [e]).count c := by
  cases e with
  | start context send =>
    have := resolution_start s context send c h
    simp only [startedRefs, List.count_cons, List.count_nil, step]
    simp only [beq_iff_eq]
    omega
  | abort context => exact resolution_abort s context c
  | response r => exact resolution_response s r c
  | timeout id => exact resolution_timeout s id c h
  | clear => exact resolution_clear s c
  | image id loaded => exact resolution_image s id loaded c
  | clock now => exact le_refl _

theorem startedRefs_cons (e : Event) (es : List Event) :
    startedRefs (e :: es) = startedRefs [e] ++ startedRefs es := by
  cases e <;> simp [startedRefs]

theorem resolution_run (events : List Event) (c : Nat) :
    ∀ s, WellFormed s →
      resolutionCount c (run s events) ≤ resolutionCount c s + (startedRefs events).count c := by
  induction events with
  | nil => intro s _; simp [run, startedRefs]
  | cons e es ih =>
    intro s h
    have h1 := resolution_step s e c h
    have h2 := ih (step s e) (wellFormed_step s e h)
    rw [startedRefs_cons, List.count_append]
    have e2 : run s (e :: es) = run (step s e) es := rfl
    rw [e2]
    omega

/-! ## Statistics -/

theorem wired_step (s : State) (e : Event) :
    (step s e).onRequest = s.onRequest ∧ (step s e).onResponse = s.onResponse ∧
      (step s e).onError = s.onError ∧ (step s e).webrtcTileSource = s.webrtcTileSource := by
  cases e with
  | start context send =>
    simp only [step]
    unfold downloadTileStart
    split
    · cases he : s.onError <;> simp [_triggerError, he, handleTileError, emit, contextFail]
    · split
      · cases he : s.onError <;> simp [_triggerError, he, handleTileError, emit, contextFail]
      · cases send with
        | sent =>
          cases ho : s.onRequest <;>
            simp [_sendSdpcRtcRequest, _triggerRequest, ho, handleTileRequest, emit,
              _generateRequestId, setTimeout]
        | threw message =>
          simp only [_sendSdpcRtcRequest]
          split <;> cases he : s.onError <;>
            simp [_triggerError, he, handleTileError, emit, _generateRequestId, setTimeout,
              contextFail, clearTimeout]
  | abort context =>
    simp only [step]
    unfold downloadTileAbort
    split <;> simp [clearTimeout, emit]
  | response r =>
    simp only [step]
    unfold handleResponse
    split
    · cases he : s.onError <;> simp [_triggerError, he, handleTileError, emit]
    · split <;> cases ho : s.onResponse <;> cases he : s.onError <;>
        simp [_triggerResponse, _triggerError, ho, he, handleTileResponse, handleTileError, emit,
          clearTimeout, contextFail, _loadImageFromBase64]
  | timeout id =>
    simp only [step]
    unfold fireTimeout
    split
    · simp
    · cases he : s.onError <;> simp [_triggerError, he, handleTileError, emit, contextFail]
  | clear => simp only [step]; rw [clearPendingRequests_eq]; simp
  | image id loaded =>
    simp only [step]
    unfold imageSettled
    split
    · simp
    · cases loaded <;> simp [contextFinish, contextFail, emit]
  | clock now => simp [step]

theorem start_sent_stats (s : State) (c : Context) (tc : TileCoords) (hw : Wired s)
    (h1 : s.sdpcRtc = true) (h2 : truthy s.channelName = true)
    (h3 : _parseTileUrl c.src = some tc) :
    (downloadTileStart s c SendOutcome.sent).stats =
      { s.stats with
        totalRequests := s.stats.totalRequests + 1
        lastRequestTime := some s.now } := by
  have hg : (!s.sdpcRtc || !truthy s.channelName) = false := by simp [h1, h2]
  unfold downloadTileStart
  rw [hg, h3]
  simp [_generateRequestId, setTimeout, emit, _sendSdpcRtcRequest, _triggerRequest, hw.1,
    handleTileRequest]

theorem response_success_stats (s : State) (r : ResponseData) (k : String) (q : Request)
    (hw : Wired s)
    (hf : s.pendingRequests.find? (fun p => r.requestId == expectedResponseId p.2) = some (k, q))
    (h200 : r.responseCode = 200) (hdata : truthy r.resposeData = true) :
    (handleResponse s r).stats.totalRequests = s.stats.totalRequests ∧
    (handleResponse s r).stats.successCount = s.stats.successCount + 1 ∧
    (handleResponse s r).stats.errorCount = s.stats.errorCount ∧
    (s.webrtcTileSource = true →
      (handleResponse s r).stats.pendingRequests =
        getPendingRequestCount (handleResponse s r)) := by
  unfold handleResponse
  rw [hf]
  simp only [h200, hdata, and_self, if_true]
  cases hh : s.webrtcTileSource <;>
    simp [_triggerResponse, hw.2.1, handleTileResponse, emit, clearTimeout,
      _loadImageFromBase64, h200, hh, getPendingRequestCount]

theorem timeout_stats (s : State) (id : Nat) (t : Timer) (hw : Wired s)
    (hf : s.timers.find? (fun u => u.id == id) = some t) :
    (fireTimeout s id).stats = { s.stats with errorCount := s.stats.errorCount + 1 } := by
  unfold fireTimeout
  rw [hf]
  simp [_triggerError, hw.2.2, handleTileError, emit, contextFail]

theorem length_mapDelete (m : List (String × Request)) (h : (m.map Prod.fst).Nodup)
    (k : String) (q : Request) (hq : (k, q) ∈ m) : (mapDelete k m).length + 1 = m.length := by
  obtain ⟨pre, post, e⟩ := List.append_of_mem hq
  subst e
  rw [mapDelete_middle k q pre post h]
  simp
  omega

theorem length_mapDelete_le (m : List (String × Request)) (k : String) :
    (mapDelete k m).length ≤ m.length := by
  unfold mapDelete
  exact List.length_filter_le _ _

theorem balance_step (s : State) (e : Event) (hw : Wired s) (h : WellFormed s)
    (hg : keepsBalance s e = true) (d : Nat)
    (hb : s.stats.totalRequests =
      s.stats.successCount + s.stats.errorCount + s.pendingRequests.length + d) :
    (step s e).stats.totalRequests =
      (step s e).stats.successCount + (step s e).stats.errorCount +
        (step s e).pendingRequests.length + d := by
  cases e with
  | start context send =>
    simp only [keepsBalance, startSucceeds, Bool.and_eq_true, beq_iff_eq] at hg
    obtain ⟨⟨⟨h1, h2⟩, h3⟩, h4⟩ := hg
    subst h4
    obtain ⟨tc, h3⟩ := Option.isSome_iff_exists.mp h3
    have hst := start_sent_stats s context tc hw h1 h2 h3
    obtain ⟨_, _, hsent, _⟩ := downloadTileStart_accepted s context SendOutcome.sent tc h1 h2 h3
      (fresh_requestId s h)
    obtain ⟨hp, _, _⟩ := hsent rfl
    simp only [step]
    rw [hst, hp]
    simp
    omega
  | response r =>
    simp only [keepsBalance, successResponse, Bool.and_eq_true, beq_iff_eq] at hg
    obtain ⟨⟨h1, h2⟩, h3⟩ := hg
    obtain ⟨p, hf⟩ := Option.isSome_iff_exists.mp h1
    obtain ⟨k, q⟩ := p
    obtain ⟨ht, hs, he, _⟩ := response_success_stats s r k q hw hf h2 h3
    obtain ⟨hp, _⟩ := handleResponse_found s r k q hf
    have hl := length_mapDelete s.pendingRequests h.1 k q (List.mem_of_find?_eq_some hf)
    simp only [step]
    rw [ht, hs, he, hp]
    omega
  | timeout id =>
    simp only [step]
    cases hf : s.timers.find? (fun u => u.id == id) with
    | none => rw [fireTimeout_none s id hf]; exact hb
    | some t =>
      obtain ⟨hp, _⟩ := fireTimeout_found s id t hf
      obtain ⟨q, hq, _, _⟩ := h.2.2 t (List.mem_of_find?_eq_some hf)
      have hl := length_mapDelete s.pendingRequests h.1 t.requestId q hq
      rw [timeout_stats s id t hw hf, hp]
      simp
      omega
  | image id loaded =>
    simp only [step]
    cases hf : s.images.find? (fun j => j.id == id) with
    | none => rw [imageSettled_none s id loaded hf]; exact hb
    | some i => rw [imageSettled_found s id loaded i hf]; exact hb
  | clock now => exact hb
  | abort context => simp [keepsBalance] at hg
  | clear => simp [keepsBalance] at hg

theorem bound_step (s : State) (e : Event) (hw : Wired s) (h : WellFormed s)
    (hg : keepsBound s e = true)
    (hb : s.stats.successCount + s.stats.errorCount + s.pendingRequests.length ≤
      s.stats.totalRequests) :
    (step s e).stats.successCount + (step s e).stats.errorCount +
      (step s e).pendingRequests.length ≤ (step s e).stats.totalRequests := by
  have key : keepsBalance s e = true →
      (step s e).stats.successCount + (step s e).stats.errorCount +
        (step s e).pendingRequests.length ≤ (step s e).stats.totalRequests := by
    intro hg2
    have := balance_step s e hw h hg2
      (s.stats.totalRequests -
        (s.stats.successCount + s.stats.errorCount + s.pendingRequests.length)) (by omega)
    omega
  cases e with
  | abort context =>
    simp only [step]
    cases hf : s.pendingRequests.find? (fun p => p.2.context.ref == context.ref) with
    | none => rw [downloadTileAbort_none s context hf]; exact hb
    | some p =>
      obtain ⟨k, q⟩ := p
      rw [downloadTileAbort_found s context k q hf]
      have := length_mapDelete_le s.pendingRequests k
      simp only
      omega
  | clear =>
    simp only [step]
    rw [clearPendingRequests_eq]
    simp only [List.length_nil]
    omega
  | start context send => exact key hg
  | response r => exact key hg
  | timeout id => exact key hg
  | image id loaded => exact key hg
  | clock now => exact key hg

theorem wired_run (events : List Event) :
    ∀ s, Wired s → Wired (run s events) := by
  induction events with
  | nil => intro s h; exact h
  | cons e es ih =>
    intro s h
    obtain ⟨h1, h2, h3, _⟩ := wired_step s e
    exact ih (step s e) ⟨h1.trans h.1, h2.trans h.2.1, h3.trans h.2.2⟩

theorem held_run (events : List Event) :
    ∀ s, (run s events).webrtcTileSource = s.webrtcTileSource := by
  induction events with
  | nil => intro s; rfl
  | cons e es ih =>
    intro s
    exact (ih (step s e)).trans (wired_step s e).2.2.2

theorem balance_run (events : List Event) (d : Nat) :
    ∀ s, Wired s → WellFormed s → allowedRun keepsBalance s events = true →
      s.stats.totalRequests =
        s.stats.successCount + s.stats.errorCount + s.pendingRequests.length + d →
      (run s events).stats.totalRequests =
        (run s events).stats.successCount + (run s events).stats.errorCount +
          (run s events).pendingRequests.length + d := by
  induction events with
  | nil => intro s _ _ _ hb; exact hb
  | cons e es ih =>
    intro s hw h hg hb
    simp only [allowedRun, Bool.and_eq_true] at hg
    exact ih (step s e) (wired_run [e] s hw) (wellFormed_step s e h) hg.2
      (balance_step s e hw h hg.1 d hb)

theorem bound_run (events : List Event) :
    ∀ s, Wired s → WellFormed s → allowedRun keepsBound s events = true →
      s.stats.successCount + s.stats.errorCount + s.pendingRequests.length ≤
        s.stats.totalRequests →
      (run s events).stats.successCount + (run s events).stats.errorCount +
        (run s events).pendingRequests.length ≤ (run s events).stats.totalRequests := by
  induction events with
  | nil => intro s _ _ _ hb; exact hb
  | cons e es ih =>
    intro s hw h hg hb
    simp only [allowedRun, Bool.and_eq_true] at hg
    exact ih (step s e) (wired_run [e] s hw) (wellFormed_step s e h) hg.2
      (bound_step s e hw h hg.1 hb)

theorem run_append (s : State) (es fs : List Event) : run s (es ++ fs) = run (run s es) fs := by
  simp [run, List.foldl_append]

theorem allowedRun_append (guard : State → Event → Bool) (es fs : List Event) :
    ∀ s, allowedRun guard s (es ++ fs) = true →
      allowedRun guard s es = true ∧ allowedRun guard (run s es) fs = true := by
  induction es with
  | nil => intro s h; exact ⟨rfl, h⟩
  | cons e es ih =>
    intro s h
    simp only [List.cons_append, allowedRun, Bool.and_eq_true] at h ⊢
    obtain ⟨h1, h2⟩ := ih (step s e) h.2
    exact ⟨⟨h.1, h1⟩, h2⟩

/-! ## The claims -/

/-- C2. A response whose `requestId` differs from the derived key of every pending entry leaves
the pending-request map, the timers and the images in flight unchanged, and the only effect is
the notification `Unknown response` to the error observer (when one is installed): neither
`fail` nor `finish` is called and no timer is cleared. -/
theorem handleResponse_unmatched (s : State) (r : ResponseData)
    (h : ∀ p ∈ s.pendingRequests, r.requestId ≠ expectedResponseId p.2) :
    (handleResponse s r).pendingRequests = s.pendingRequests ∧
    getPendingRequestCount (handleResponse s r) = getPendingRequestCount s ∧
    (handleResponse s r).timers = s.timers ∧
    (handleResponse s r).images = s.images ∧
    (handleResponse s r).trace = s.trace ++
      (if s.onError then [Effect.onError ("Unknown response: " ++ r.requestId)] else []) := by
  have hf : s.pendingRequests.find? (fun p => r.requestId == expectedResponseId p.2) = none := by
    rw [List.find?_eq_none]
    intro p hp
    simpa using h p hp
  have e : handleResponse s r = _triggerError s ("Unknown response: " ++ r.requestId) := by
    unfold handleResponse
    rw [hf]
  obtain ⟨hp, ht, hi, _, htr⟩ := triggerError_fields s ("Unknown response: " ++ r.requestId)
  rw [e]
  exact ⟨hp, by unfold getPendingRequestCount; rw [hp], ht, hi, htr⟩

theorem handleResponse_unmatched_witness :
    (∀ p ∈ onePending.pendingRequests, strayResponse.requestId ≠ expectedResponseId p.2) ∧
    (handleResponse onePending strayResponse).pendingRequests = onePending.pendingRequests ∧
    getPendingRequestCount (handleResponse onePending strayResponse) =
      getPendingRequestCount onePending ∧
    (handleResponse onePending strayResponse).timers = onePending.timers ∧
    (handleResponse onePending strayResponse).images = onePending.images ∧
    (handleResponse onePending strayResponse).trace = onePending.trace ++
      (if onePending.onError then
        [Effect.onError ("Unknown response: " ++ strayResponse.requestId)] else []) :=
  ⟨by decide, handleResponse_unmatched onePending strayResponse (by decide)⟩

theorem expectedResponseId_toList (q : Request) :
    (expectedResponseId q).toList =
      "GetTile ".toList ++ ((numberToString q.level).toList ++ (" ".toList ++
        ((numberToString q.x).toList ++ (" ".toList ++ ((numberToString q.y).toList ++ []))))) := by
  simp [expectedResponseId, String.toList, String.data_append]

theorem space_not_digit (rest : List Char) :
    ∀ c, (" ".toList ++ rest).head? = some c → c.isDigit = false := by
  intro c hc
  simp at hc
  rw [← hc]
  decide

theorem digits_split (a b r1 r2 : List Char) (ha : ∀ c ∈ a, c.isDigit = true)
    (hb : ∀ c ∈ b, c.isDigit = true)
    (h1 : ∀ c, r1.head? = some c → c.isDigit = false)
    (h2 : ∀ c, r2.head? = some c → c.isDigit = false)
    (h : a ++ r1 = b ++ r2) : a = b ∧ r1 = r2 := by
  obtain ⟨ta, da⟩ := takeWhile_digits_append a r1 ha h1
  obtain ⟨tb, db⟩ := takeWhile_digits_append b r2 hb h2
  rw [h] at ta da
  exact ⟨ta.symm.trans tb, da.symm.trans db⟩

/-- The key a pending request derives determines its coordinate. -/
theorem expectedResponseId_injective (a b : Request) (ha : IsPlainCoordinate a)
    (hb : IsPlainCoordinate b) (h : expectedResponseId a = expectedResponseId b) :
    a.level = b.level ∧ a.x = b.x ∧ a.y = b.y := by
  have h2 := congrArg String.toList h
  rw [expectedResponseId_toList, expectedResponseId_toList] at h2
  have h3 := List.append_cancel_left h2
  obtain ⟨e1, r1⟩ := digits_split _ _ _ _ (numberToString_digits _ ha.1)
    (numberToString_digits _ hb.1) (space_not_digit _) (space_not_digit _) h3
  have h4 := List.append_cancel_left r1
  obtain ⟨e2, r2⟩ := digits_split _ _ _ _ (numberToString_digits _ ha.2.1)
    (numberToString_digits _ hb.2.1) (space_not_digit _) (space_not_digit _) h4
  have h5 := List.append_cancel_left r2
  obtain ⟨e3, _⟩ := digits_split _ _ _ _ (numberToString_digits _ ha.2.2)
    (numberToString_digits _ hb.2.2) (by simp) (by simp) h5
  exact ⟨numberToString_injective _ _ ha.1 hb.1 (String.ext e1),
    numberToString_injective _ _ ha.2.1 hb.2.1 (String.ext e2),
    numberToString_injective _ _ ha.2.2 hb.2.2 (String.ext e3)⟩

/-- C3. A response is matched by the key `GetTile <level> <x> <y>` derived from the stored
coordinate of each pending entry, whatever the local request id `k` is: when `q` is the first
entry in insertion order whose derived key equals the `requestId` of the response, exactly that
entry is removed and its timer cleared, every other entry (also a later one for the same
coordinate) stays pending and unchanged, the sink and image effects concern only the context
of `q`, and the size of the map drops by exactly one. The key determines the coordinate: the
entry resolved is for the tile the response names. The map has no duplicate key. -/
theorem handleResponse_first_match (s : State) (r : ResponseData)
    (pre post : List (String × Request)) (k : String) (q : Request)
    (hkeys : (registryKeys s).Nodup)
    (hs : s.pendingRequests = pre ++ (k, q) :: post)
    (hpre : ∀ p ∈ pre, r.requestId ≠
      "GetTile " ++ numberToString p.2.level ++ " " ++ numberToString p.2.x ++ " " ++
        numberToString p.2.y)
    (hq : r.requestId =
      "GetTile " ++ numberToString q.level ++ " " ++ numberToString q.x ++ " " ++
        numberToString q.y) :
    (handleResponse s r).pendingRequests = pre ++ post ∧
    getPendingRequestCount (handleResponse s r) + 1 = getPendingRequestCount s ∧
    (handleResponse s r).timers = s.timers.filter (fun t => t.id != q.timeoutId) ∧
    (∃ rest, (handleResponse s r).trace = s.trace ++ Effect.clearTimeout q.timeoutId :: rest ∧
      (∀ id, Effect.clearTimeout id ∉ rest) ∧
      ∀ e ∈ rest, ∀ c, isTerminalFor c e = true → c = q.context.ref) ∧
    (∀ i ∈ (handleResponse s r).images, i ∈ s.images ∨ i.context = q.context) ∧
    (∀ level x y : Nat, IsPlainNumber level → IsPlainNumber x → IsPlainNumber y →
      IsPlainCoordinate q →
      r.requestId =
        "GetTile " ++ numberToString level ++ " " ++ numberToString x ++ " " ++
          numberToString y →
      q.level = level ∧ q.x = x ∧ q.y = y) := by
  have hq2 : r.requestId = expectedResponseId q := hq
  have hpre2 : ∀ p ∈ pre, r.requestId ≠ expectedResponseId p.2 := hpre
  have hf : s.pendingRequests.find? (fun p => r.requestId == expectedResponseId p.2)
      = some (k, q) := by
    rw [List.find?_eq_some]
    exact ⟨by simpa using hq2, pre, post, hs, by intro a ha; simpa using hpre2 a ha⟩
  obtain ⟨hp, ht, _, hok, hbad⟩ := handleResponse_found s r k q hf
  have hdel : mapDelete k s.pendingRequests = pre ++ post := by
    rw [hs]
    refine mapDelete_middle k q pre post ?_
    unfold registryKeys at hkeys
    rw [hs] at hkeys
    exact hkeys
  refine ⟨hp.trans hdel, ?_, ht, ?_, ?_, ?_⟩
  · unfold getPendingRequestCount
    rw [hp, hdel, hs]
    simp
    omega
  · by_cases h200 : r.responseCode = 200 ∧ truthy r.resposeData = true
    · obtain ⟨src, _, htr⟩ := hok h200
      refine ⟨_, htr, ?_, ?_⟩
      · intro id
        cases s.onResponse <;> simp
      · cases s.onResponse <;> simp [isTerminalFor]
    · obtain ⟨msg, _, htr⟩ := hbad h200
      refine ⟨_, htr, ?_, ?_⟩
      · intro id
        cases s.onResponse <;> cases s.onError <;> simp
      · cases s.onResponse <;> cases s.onError <;> simp [isTerminalFor]
  · intro i hi
    by_cases h200 : r.responseCode = 200 ∧ truthy r.resposeData = true
    · obtain ⟨src, him, _⟩ := hok h200
      rw [him, List.mem_append] at hi
      rcases hi with hi | hi
      · exact Or.inl hi
      · simp at hi
        exact Or.inr (by rw [hi])
    · obtain ⟨msg, him, _⟩ := hbad h200
      rw [him] at hi
      exact Or.inl hi
  · intro level x y hl hx hy hplain hr
    have e : expectedResponseId q =
        expectedResponseId { q with level := level, x := x, y := y } := by
      rw [← hq2]
      exact hr
    exact expectedResponseId_injective q { q with level := level, x := x, y := y } hplain
      ⟨hl, hx, hy⟩ e

theorem handleResponse_first_match_witness :
    ((registryKeys mixedPending).Nodup ∧
      mixedPending.pendingRequests =
        [("req_1_1000", otherTileRequest)] ++
          ("req_2_1000", earlierRequest) :: [("req_3_1000", laterRequest)] ∧
      (∀ p ∈ [("req_1_1000", otherTileRequest)], okResponse.requestId ≠
        "GetTile " ++ numberToString p.2.level ++ " " ++ numberToString p.2.x ++ " " ++
          numberToString p.2.y) ∧
      okResponse.requestId =
        "GetTile " ++ numberToString earlierRequest.level ++ " " ++
          numberToString earlierRequest.x ++ " " ++ numberToString earlierRequest.y ∧
      expectedResponseId otherTileRequest = "GetTile 2 1 1" ∧
      expectedResponseId earlierRequest = "GetTile 0 0 0" ∧
      expectedResponseId laterRequest = "GetTile 0 0 0" ∧
      expectedResponseId { laterRequest with level := 10 ^ 21 } = "GetTile 1e+21 0 0") ∧
    (handleResponse mixedPending okResponse).pendingRequests =
      [("req_1_1000", otherTileRequest)] ++ [("req_3_1000", laterRequest)] ∧
    getPendingRequestCount (handleResponse mixedPending okResponse) + 1 =
      getPendingRequestCount mixedPending ∧
    (handleResponse mixedPending okResponse).timers =
      mixedPending.timers.filter (fun t => t.id != earlierRequest.timeoutId) :=
  have h := handleResponse_first_match mixedPending okResponse
    [("req_1_1000", otherTileRequest)] [("req_3_1000", laterRequest)]
    "req_2_1000" earlierRequest (by decide) (by decide) (by decide) (by decide)
  ⟨⟨by decide, by decide, by decide, by decide, by decide, by decide, by decide, by decide⟩,
    h.1, h.2.1, h.2.2.1⟩

/-- C4. For every context `c`, `downloadTileAbort` removes exactly the first pending entry in
insertion order whose stored context is `c` and clears the timer of that entry only; every other
entry and timer is unchanged. When no pending entry stores `c` the state is unchanged. The
function is total: nothing is thrown. The map has no duplicate key. -/
theorem downloadTileAbort_effect (s : State) (c : Context) (hkeys : (registryKeys s).Nodup) :
    ((∀ p ∈ s.pendingRequests, p.2.context.ref ≠ c.ref) → downloadTileAbort s c = s) ∧
    (∀ (pre post : List (String × Request)) (k : String) (q : Request),
      s.pendingRequests = pre ++ (k, q) :: post →
      (∀ p ∈ pre, p.2.context.ref ≠ c.ref) →
      q.context.ref = c.ref →
      downloadTileAbort s c =
        { s with
          pendingRequests := pre ++ post
          timers := s.timers.filter (fun t => t.id != q.timeoutId)
          trace := s.trace ++ [Effect.clearTimeout q.timeoutId] }) := by
  constructor
  · intro h
    apply downloadTileAbort_none
    rw [List.find?_eq_none]
    intro p hp
    simpa using h p hp
  · intro pre post k q hs hpre hq
    have hf : s.pendingRequests.find? (fun p => p.2.context.ref == c.ref) = some (k, q) := by
      rw [List.find?_eq_some]
      exact ⟨by simpa using hq, pre, post, hs, by intro a ha; simpa using hpre a ha⟩
    have hdel : mapDelete k s.pendingRequests = pre ++ post := by
      rw [hs]
      refine mapDelete_middle k q pre post ?_
      unfold registryKeys at hkeys
      rw [hs] at hkeys
      exact hkeys
    rw [downloadTileAbort_found s c k q hf, hdel]

theorem downloadTileAbort_effect_witness :
    ((registryKeys twoPending).Nodup ∧
      twoPending.pendingRequests =
        [("req_1_1000", firstRequest)] ++ ("req_2_1000", secondRequest) :: []) ∧
    downloadTileAbort twoPending (tileContext 2 0 0 0) =
      { twoPending with
        pendingRequests := [("req_1_1000", firstRequest)] ++ []
        timers := twoPending.timers.filter (fun t => t.id != secondRequest.timeoutId)
        trace := twoPending.trace ++ [Effect.clearTimeout secondRequest.timeoutId] } ∧
    downloadTileAbort twoPending (tileContext 7 0 0 0) = twoPending :=
  have h := downloadTileAbort_effect twoPending (tileContext 2 0 0 0) (by decide)
  have h7 := downloadTileAbort_effect twoPending (tileContext 7 0 0 0) (by decide)
  ⟨⟨by decide, by decide⟩,
    h.2 [("req_1_1000", firstRequest)] [] "req_2_1000" secondRequest (by decide) (by decide)
      (by decide),
    h7.1 (by decide)⟩

/-- C5, as the code has it: for a pending entry that stores the context `c`,
`downloadTileAbort` clears the timer of the first such entry and removes that entry, and calls
no sink at all: the only effect is the `clearTimeout`, so the context receives neither `fail`
nor `finish`. -/
theorem downloadTileAbort_silent (s : State) (c : Context)
    (h : ∃ p ∈ s.pendingRequests, p.2.context.ref = c.ref) :
    ∃ k q, (k, q) ∈ s.pendingRequests ∧ q.context.ref = c.ref ∧
      (k, q) ∉ (downloadTileAbort s c).pendingRequests ∧
      (∀ t ∈ (downloadTileAbort s c).timers, t.id ≠ q.timeoutId) ∧
      (downloadTileAbort s c).trace = s.trace ++ [Effect.clearTimeout q.timeoutId] ∧
      ∀ c2, terminalCount c2 (downloadTileAbort s c).trace = terminalCount c2 s.trace := by
  cases hf : s.pendingRequests.find? (fun p => p.2.context.ref == c.ref) with
  | none =>
    rw [List.find?_eq_none] at hf
    obtain ⟨p, hp, hc⟩ := h
    exact absurd (by simpa using hc) (hf p hp)
  | some p =>
    obtain ⟨k, q⟩ := p
    have hq : q.context.ref = c.ref := by simpa using List.find?_some hf
    refine ⟨k, q, List.mem_of_find?_eq_some hf, hq, ?_, ?_, ?_, ?_⟩
    · rw [downloadTileAbort_found s c k q hf]
      simp [mapDelete]
    · rw [downloadTileAbort_found s c k q hf]
      intro t ht
      simpa using (List.mem_filter.mp ht).2
    · rw [downloadTileAbort_found s c k q hf]
    · intro c2
      rw [downloadTileAbort_found s c k q hf]
      simp [terminalCount, isTerminalFor]

theorem downloadTileAbort_silent_witness :
    (∃ p ∈ onePending.pendingRequests, p.2.context.ref = (tileContext 1 0 0 0).ref) ∧
    ∃ k q, (k, q) ∈ onePending.pendingRequests ∧ q.context.ref = (tileContext 1 0 0 0).ref ∧
      (k, q) ∉ (downloadTileAbort onePending (tileContext 1 0 0 0)).pendingRequests ∧
      (∀ t ∈ (downloadTileAbort onePending (tileContext 1 0 0 0)).timers,
        t.id ≠ q.timeoutId) ∧
      (downloadTileAbort onePending (tileContext 1 0 0 0)).trace =
        onePending.trace ++ [Effect.clearTimeout q.timeoutId] ∧
      ∀ c2, terminalCount c2 (downloadTileAbort onePending (tileContext 1 0 0 0)).trace =
        terminalCount c2 onePending.trace :=
  ⟨by decide, downloadTileAbort_silent onePending (tileContext 1 0 0 0) (by decide)⟩

/-- C5 fails as stated: context 1 has a pending entry, and after `downloadTileAbort` the entry
is gone but the context was never failed. -/
theorem abort_leaves_sink_unfailed :
    (∃ p ∈ onePending.pendingRequests, p.2.context = tileContext 1 0 0 0) ∧
    (downloadTileAbort onePending (tileContext 1 0 0 0)).pendingRequests = [] ∧
    (downloadTileAbort onePending (tileContext 1 0 0 0)).trace.countP (isFailFor 1) = 0 ∧
    ¬ (downloadTileAbort onePending (tileContext 1 0 0 0)).trace.countP (isFailFor 1) = 1 := by
  decide

/-- C6. Over every sequence of events in which no context is given to `downloadTileStart`
twice, each context receives at most one terminal callback (`fail` or `finish`) in total; and in
every state reached, each live timer belongs to an entry that is still pending and stores the
context the timer would fail, so no timer outlives the entry it was started for. -/
theorem exclusive_resolution (options : Options) (now : Nat) (held : Bool)
    (events : List Event) (h : (startedRefs events).Nodup) (c : Nat) :
    terminalCount c (run (construct options now held) events).trace ≤ 1 ∧
    ∀ t ∈ (run (construct options now held) events).timers,
      ∃ q, (t.requestId, q) ∈ (run (construct options now held) events).pendingRequests ∧
        q.timeoutId = t.id ∧ q.context = t.context := by
  have hwf := wellFormed_construct options now held
  constructor
  · have h1 := resolution_run events c (construct options now held) hwf
    have h0 : resolutionCount c (construct options now held) = 0 := by
      simp [resolutionCount, terminalCount, pendingCount, imageCount, construct]
    have h2 := List.nodup_iff_count_le_one.mp h c
    unfold resolutionCount at h1
    unfold resolutionCount at h0
    omega
  · exact (wellFormed_run events _ hwf).2.2

theorem exclusive_resolution_witness :
    (startedRefs mixedRun).Nodup ∧
    terminalCount 1 (run (construct wiredOptions 1000 true) mixedRun).trace ≤ 1 ∧
    ∀ t ∈ (run (construct wiredOptions 1000 true) mixedRun).timers,
      ∃ q, (t.requestId, q) ∈ (run (construct wiredOptions 1000 true) mixedRun).pendingRequests ∧
        q.timeoutId = t.id ∧ q.context = t.context :=
  ⟨by decide, exclusive_resolution wiredOptions 1000 true mixedRun (by decide) 1⟩

/-- C7, as the code has it: with the three handlers installed, in every state reached by
accepted `downloadTileStart` calls, matched responses with code 200 and a payload, timeouts,
image completions and clock changes, `totalRequests` equals `successCount + errorCount` plus
the live size of the pending-request map; and right after such a matched response, when the
composable holds the tile source, `stats.pendingRequests` is that size. -/
theorem stats_balance (options : Options) (now : Nat) (held : Bool) (events : List Event)
    (hw : options.onRequest = true ∧ options.onResponse = true ∧ options.onError = true)
    (hrun : allowedRun keepsBalance (construct options now held) events = true) :
    (run (construct options now held) events).stats.totalRequests =
      (run (construct options now held) events).stats.successCount +
        (run (construct options now held) events).stats.errorCount +
        getPendingRequestCount (run (construct options now held) events) ∧
    (held = true → ∀ es r, events = es ++ [Event.response r] →
      (run (construct options now held) events).stats.pendingRequests =
        getPendingRequestCount (run (construct options now held) events)) := by
  have hwf := wellFormed_construct options now held
  have hwired : Wired (construct options now held) := hw
  constructor
  · have := balance_run events 0 (construct options now held) hwired hwf hrun
      (by simp [construct, Stats.zero])
    unfold getPendingRequestCount
    omega
  · intro hheld es r he
    subst he
    obtain ⟨_, hlast⟩ := allowedRun_append keepsBalance es [Event.response r] _ hrun
    simp only [allowedRun, keepsBalance, successResponse, Bool.and_true, Bool.and_eq_true,
      beq_iff_eq] at hlast
    obtain ⟨⟨h1, h2⟩, h3⟩ := hlast
    obtain ⟨p, hf⟩ := Option.isSome_iff_exists.mp h1
    obtain ⟨k, q⟩ := p
    rw [run_append]
    have hh : (run (construct options now held) es).webrtcTileSource = true := by
      rw [held_run]
      exact hheld
    exact (response_success_stats _ r k q (wired_run es _ hwired) hf h2 h3).2.2.2 hh

theorem stats_balance_witness :
    ((wiredOptions.onRequest = true ∧ wiredOptions.onResponse = true ∧
        wiredOptions.onError = true) ∧
      allowedRun keepsBalance (construct wiredOptions 1000 true) countedRun = true) ∧
    (run (construct wiredOptions 1000 true) countedRun).stats.totalRequests =
      (run (construct wiredOptions 1000 true) countedRun).stats.successCount +
        (run (construct wiredOptions 1000 true) countedRun).stats.errorCount +
        getPendingRequestCount (run (construct wiredOptions 1000 true) countedRun) :=
  ⟨⟨by decide, by decide⟩,
    (stats_balance wiredOptions 1000 true countedRun (by decide) (by decide)).1⟩

/-- C7 fails as stated: after the first `downloadTileStart` one request was sent and is
pending, but `stats.pendingRequests` is still 0, so `totalRequests` is 1 and the sum is 0; and
after a `downloadTileAbort` of that request the map is empty and nothing was counted, so the
equation fails for the live size of the map as well. -/
theorem first_start_breaks_balance :
    (onePending.stats.totalRequests = 1 ∧
      onePending.stats.successCount + onePending.stats.errorCount +
        onePending.stats.pendingRequests = 0) ∧
    ((downloadTileAbort onePending (tileContext 1 0 0 0)).stats.totalRequests = 1 ∧
      (downloadTileAbort onePending (tileContext 1 0 0 0)).stats.successCount +
        (downloadTileAbort onePending (tileContext 1 0 0 0)).stats.errorCount +
        getPendingRequestCount (downloadTileAbort onePending (tileContext 1 0 0 0)) = 0) := by
  decide

/-- C8 at the failing input: after the first `downloadTileStart` on a wired source the map
holds one request while `stats.pendingRequests` is still 0; the handler of a matched response
is the only one that refreshes it. -/
theorem pending_stat_stale :
    getPendingRequestCount onePending = 1 ∧ onePending.stats.pendingRequests = 0 ∧
    getPendingRequestCount (fireTimeout twoPending 1) = 1 ∧
    (fireTimeout twoPending 1).stats.pendingRequests = 0 ∧
    getPendingRequestCount (handleResponse twoPending okResponse) = 1 ∧
    (handleResponse twoPending okResponse).stats.pendingRequests = 1 := by
  decide

/-- C9, as the code has it: with the three handlers installed, in every state reached by
accepted `downloadTileStart` calls, matched responses with code 200 and a payload, timeouts,
`downloadTileAbort`, `clearPendingRequests`, image completions and clock changes,
`successCount + errorCount` is at most `totalRequests`. -/
theorem stats_bound (options : Options) (now : Nat) (held : Bool) (events : List Event)
    (hw : options.onRequest = true ∧ options.onResponse = true ∧ options.onError = true)
    (hrun : allowedRun keepsBound (construct options now held) events = true) :
    (run (construct options now held) events).stats.successCount +
        (run (construct options now held) events).stats.errorCount ≤
      (run (construct options now held) events).stats.totalRequests := by
  have := bound_run events (construct options now held) hw
    (wellFormed_construct options now held) hrun (by simp [construct, Stats.zero])
  omega

theorem stats_bound_witness :
    ((wiredOptions.onRequest = true ∧ wiredOptions.onResponse = true ∧
        wiredOptions.onError = true) ∧
      allowedRun keepsBound (construct wiredOptions 1000 true) boundedRun = true) ∧
    (run (construct wiredOptions 1000 true) boundedRun).stats.successCount +
        (run (construct wiredOptions 1000 true) boundedRun).stats.errorCount ≤
      (run (construct wiredOptions 1000 true) boundedRun).stats.totalRequests :=
  ⟨⟨by decide, by decide⟩, stats_bound wiredOptions 1000 true boundedRun (by decide) (by decide)⟩

/-- C9 fails as stated: on a fresh wired source an unmatched response, a rejected
`downloadTileStart` and a failed send each raise `errorCount` to 1 while `totalRequests` is 0;
and after one accepted request a matched response with code 500 counts two errors, one with
code 200 and no payload counts a success and an error, against a single request. -/
theorem errors_exceed_requests :
    ((handleResponse demoSource strayResponse).stats.totalRequests = 0 ∧
      (handleResponse demoSource strayResponse).stats.errorCount = 1) ∧
    ((downloadTileStart demoSource badContext SendOutcome.sent).stats.totalRequests = 0 ∧
      (downloadTileStart demoSource badContext SendOutcome.sent).stats.errorCount = 1) ∧
    ((downloadTileStart demoSource (tileContext 1 0 0 0)
        (SendOutcome.threw "closed")).stats.totalRequests = 0 ∧
      (downloadTileStart demoSource (tileContext 1 0 0 0)
        (SendOutcome.threw "closed")).stats.errorCount = 1) ∧
    ((handleResponse onePending errorResponse).stats.totalRequests = 1 ∧
      (handleResponse onePending errorResponse).stats.errorCount = 2) ∧
    ((handleResponse onePending emptyResponse).stats.totalRequests = 1 ∧
      (handleResponse onePending emptyResponse).stats.successCount = 1 ∧
      (handleResponse onePending emptyResponse).stats.errorCount = 1) := by
  decide

/-- C10. When the transport instance or the channel name is missing, or `context.src` does not
parse to a coordinate, `downloadTileStart` calls `context.fail` exactly once and nothing else
on a sink: the trace grows by that one `fail` (and its report to the error observer), so there
is no `finish`, no `setTimeout` and no send; the pending-request map, the timers, the images in
flight and the request counter are exactly as before. -/
theorem synchronous_rejection (s : State) (context : Context) (send : SendOutcome)
    (h : s.sdpcRtc = false ∨ truthy s.channelName = false ∨ _parseTileUrl context.src = none) :
    ∃ reason,
      (reason = "SdpcRtc instance or channel name not available" ∨
        reason = "Invalid tile URL format") ∧
      (downloadTileStart s context send).pendingRequests = s.pendingRequests ∧
      (downloadTileStart s context send).timers = s.timers ∧
      (downloadTileStart s context send).images = s.images ∧
      (downloadTileStart s context send).requestCounter = s.requestCounter ∧
      (downloadTileStart s context send).nextTimer = s.nextTimer ∧
      (downloadTileStart s context send).trace = s.trace ++
        (Effect.fail context reason (registryKeys s) ::
          (if s.onError then [Effect.onError reason] else [])) :=
  downloadTileStart_rejected s context send h

theorem synchronous_rejection_witness :
    (_parseTileUrl badContext.src = none ∧ offlineSource.sdpcRtc = false) ∧
    (∃ reason,
      (reason = "SdpcRtc instance or channel name not available" ∨
        reason = "Invalid tile URL format") ∧
      (downloadTileStart onePending badContext SendOutcome.sent).pendingRequests =
        onePending.pendingRequests ∧
      (downloadTileStart onePending badContext SendOutcome.sent).timers = onePending.timers ∧
      (downloadTileStart onePending badContext SendOutcome.sent).images = onePending.images ∧
      (downloadTileStart onePending badContext SendOutcome.sent).requestCounter =
        onePending.requestCounter ∧
      (downloadTileStart onePending badContext SendOutcome.sent).nextTimer =
        onePending.nextTimer ∧
      (downloadTileStart onePending badContext SendOutcome.sent).trace = onePending.trace ++
        (Effect.fail badContext reason (registryKeys onePending) ::
          (if onePending.onError then [Effect.onError reason] else []))) ∧
    (downloadTileStart offlineSource (tileContext 1 0 0 0) SendOutcome.sent).trace =
      [Effect.fail (tileContext 1 0 0 0) "SdpcRtc instance or channel name not available" [],
        Effect.onError "SdpcRtc instance or channel name not available"] :=
  ⟨⟨by decide, by decide⟩,
    synchronous_rejection onePending badContext SendOutcome.sent (Or.inr (Or.inr (by decide))),
    by decide⟩

/-! ## Failure reasons -/

theorem sendFailed_ne_timeout (message id : String) :
    "Send failed: " ++ message ≠ "Request timeout: " ++ id := by
  intro h
  have h2 := congrArg String.data h
  simp [String.data_append] at h2

theorem sendFailed_ne_fixed (message : String) :
    "Send failed: " ++ message ≠ "Request cancelled" ∧
    "Send failed: " ++ message ≠ "SdpcRtc instance or channel name not available" ∧
    "Send failed: " ++ message ≠ "Invalid tile URL format" := by
  refine ⟨?_, ?_, ?_⟩ <;> intro h <;> have h2 := congrArg String.data h <;>
    simp [String.data_append] at h2

/-- C11. When the transport send throws during `downloadTileStart`, the call returns a state
(no exception reaches the caller) whose pending-request map is exactly the map before the call;
the timer just created is cleared and every other timer kept; the context has been failed
exactly once, with the reason `Send failed: <message>`, which differs from the timeout,
cancellation, transport-unavailable and invalid-identifier reasons. -/
theorem send_failure_rollback (s : State) (context : Context) (message : String)
    (tc : TileCoords) (hwf : WellFormed s) (h1 : s.sdpcRtc = true)
    (h2 : truthy s.channelName = true) (h3 : _parseTileUrl context.src = some tc) :
    (downloadTileStart s context (SendOutcome.threw message)).pendingRequests =
      s.pendingRequests ∧
    (downloadTileStart s context (SendOutcome.threw message)).timers =
      s.timers.filter (fun t => t.id != s.nextTimer) ∧
    (∃ data, (downloadTileStart s context (SendOutcome.threw message)).trace = s.trace ++
      (Effect.setTimeout s.nextTimer s.requestTimeout ::
        Effect.refreshSlice (s.channelName.getD "") data ::
        Effect.clearTimeout s.nextTimer ::
        Effect.fail context ("Send failed: " ++ message) (registryKeys s) ::
        (if s.onError then [Effect.onError ("Send failed: " ++ message)] else []))) ∧
    terminalCount context.ref (downloadTileStart s context (SendOutcome.threw message)).trace =
      terminalCount context.ref s.trace + 1 ∧
    (∀ id, "Send failed: " ++ message ≠ "Request timeout: " ++ id) ∧
    "Send failed: " ++ message ≠ "Request cancelled" ∧
    "Send failed: " ++ message ≠ "SdpcRtc instance or channel name not available" ∧
    "Send failed: " ++ message ≠ "Invalid tile URL format" := by
  obtain ⟨_, _, _, hthrew⟩ := downloadTileStart_accepted s context (SendOutcome.threw message)
    tc h1 h2 h3 (fresh_requestId s hwf)
  obtain ⟨hp, ht, htr⟩ := hthrew message rfl
  refine ⟨hp, ht, ⟨_, htr⟩, ?_, fun id => sendFailed_ne_timeout message id,
    sendFailed_ne_fixed message⟩
  rw [htr, terminalCount_append]
  cases s.onError <;> simp [terminalCount, List.countP_cons, isTerminalFor]

theorem send_failure_rollback_witness :
    (WellFormed onePending ∧ onePending.sdpcRtc = true ∧
      truthy onePending.channelName = true ∧
      _parseTileUrl (tileContext 2 2 1 1).src = some { level := 2, x := 1, y := 1 }) ∧
    (downloadTileStart onePending (tileContext 2 2 1 1)
      (SendOutcome.threw "closed")).pendingRequests = onePending.pendingRequests ∧
    terminalCount 2 (downloadTileStart onePending (tileContext 2 2 1 1)
      (SendOutcome.threw "closed")).trace = terminalCount 2 onePending.trace + 1 :=
  have hwf : WellFormed onePending := wellFormed_run _ _ (wellFormed_construct _ _ _)
  have h := send_failure_rollback onePending (tileContext 2 2 1 1) "closed"
    { level := 2, x := 1, y := 1 } hwf (by decide) (by decide) (by decide)
  ⟨⟨hwf, by decide, by decide, by decide⟩, h.1, h.2.2.2.1⟩

/-- C12, as the code has it: in a `downloadTileStart` that registers a pending entry the
transport call `refreshSlice` comes first; the `onRequest` notification follows it, after the
call has returned, and is not made at all when the call throws. -/
theorem request_notified_after_send (s : State) (context : Context) (send : SendOutcome)
    (tc : TileCoords) (hwf : WellFormed s) (h1 : s.sdpcRtc = true)
    (h2 : truthy s.channelName = true) (h3 : _parseTileUrl context.src = some tc) :
    ∃ data,
      (send = SendOutcome.sent →
        (downloadTileStart s context send).trace = s.trace ++
          (Effect.setTimeout s.nextTimer s.requestTimeout ::
            Effect.refreshSlice (s.channelName.getD "") data ::
            (if s.onRequest then [Effect.onRequest data] else []))) ∧
      (∀ message, send = SendOutcome.threw message →
        ∃ added, (downloadTileStart s context send).trace = s.trace ++ added ∧
          Effect.refreshSlice (s.channelName.getD "") data ∈ added ∧
          ∀ e ∈ added, isRequestNotice e = false) := by
  obtain ⟨_, _, hsent, hthrew⟩ := downloadTileStart_accepted s context send tc h1 h2 h3
    (fresh_requestId s hwf)
  refine ⟨_, fun hs => (hsent hs).2.2, ?_⟩
  intro message hm
  refine ⟨_, (hthrew message hm).2.2, by simp, ?_⟩
  cases s.onError <;> simp [isRequestNotice]

theorem request_notified_after_send_witness :
    (WellFormed demoSource ∧ demoSource.sdpcRtc = true ∧
      truthy demoSource.channelName = true ∧
      _parseTileUrl (tileContext 1 0 0 0).src = some { level := 0, x := 0, y := 0 }) ∧
    ∃ data,
      (SendOutcome.sent = SendOutcome.sent →
        (downloadTileStart demoSource (tileContext 1 0 0 0) SendOutcome.sent).trace =
          demoSource.trace ++
            (Effect.setTimeout demoSource.nextTimer demoSource.requestTimeout ::
              Effect.refreshSlice (demoSource.channelName.getD "") data ::
              (if demoSource.onRequest then [Effect.onRequest data] else []))) ∧
      (∀ message, SendOutcome.sent = SendOutcome.threw message →
        ∃ added, (downloadTileStart demoSource (tileContext 1 0 0 0) SendOutcome.sent).trace =
            demoSource.trace ++ added ∧
          Effect.refreshSlice (demoSource.channelName.getD "") data ∈ added ∧
          ∀ e ∈ added, isRequestNotice e = false) :=
  have hwf : WellFormed demoSource := wellFormed_construct _ _ _
  ⟨⟨hwf, by decide, by decide, by decide⟩,
    request_notified_after_send demoSource (tileContext 1 0 0 0) SendOutcome.sent
      { level := 0, x := 0, y := 0 } hwf (by decide) (by decide) (by decide)⟩

/-- C12 fails as stated: in the trace of the first `downloadTileStart` on a wired source the
transport call is at position 1 and the `onRequest` notification after it, at position 2; and
when the send throws the request is never notified. -/
theorem send_precedes_request_notice :
    onePending.trace.findIdx? isSend = some 1 ∧
    onePending.trace.findIdx? isRequestNotice = some 2 ∧
    (downloadTileStart demoSource (tileContext 1 0 0 0)
      (SendOutcome.threw "closed")).trace.findIdx? isSend = some 1 ∧
    (downloadTileStart demoSource (tileContext 1 0 0 0)
      (SendOutcome.threw "closed")).trace.findIdx? isRequestNotice = none := by
  decide

/-! ## The identifier pattern -/

theorem dropLiteral_some (lit : List Char) :
    ∀ cs r, dropLiteral lit cs = some r → cs = lit ++ r := by
  induction lit with
  | nil => intro cs r h; simpa [dropLiteral] using h
  | cons l ls ih =>
    intro cs r h
    cases cs with
    | nil => simp [dropLiteral] at h
    | cons c cs =>
      by_cases e : l = c
      · simp only [dropLiteral, e, if_true] at h
        rw [e, ih cs r h]
        rfl
      · simp [dropLiteral, e] at h

theorem digitGroup_some (cs g r : List Char) (h : digitGroup cs = some (g, r)) :
    cs = g ++ r ∧ IsDigits g := by
  unfold digitGroup at h
  by_cases e : cs.takeWhile Char.isDigit = []
  · simp [e] at h
  · simp only [e, if_false, Option.some.injEq, Prod.mk.injEq] at h
    obtain ⟨hg, hr⟩ := h
    refine ⟨?_, ?_, ?_⟩
    · rw [← hg, ← hr, List.takeWhile_append_dropWhile]
    · rw [← hg]; exact e
    · intro c hc
      rw [← hg] at hc
      exact (List.mem_takeWhile_imp hc)

theorem digitGroup_isSome (g rest : List Char) (hg : IsDigits g) :
    ∃ g2 r2, digitGroup (g ++ rest) = some (g2, r2) := by
  obtain ⟨hne, hd⟩ := hg
  cases g with
  | nil => exact absurd rfl hne
  | cons c cs =>
    have hc := hd c (List.mem_cons_self _ _)
    refine ⟨(c :: cs ++ rest).takeWhile Char.isDigit, (c :: cs ++ rest).dropWhile Char.isDigit,
      ?_⟩
    unfold digitGroup
    simp [List.takeWhile_cons, hc]

theorem slash_not_digit (rest : List Char) :
    ∀ c, ("/".toList ++ rest).head? = some c → c.isDigit = false := by
  intro c hc
  simp at hc
  rw [← hc]
  decide

theorem matchHere_isSome_iff (cs : List Char) :
    (∃ m, matchHere cs = some m) ↔
      ∃ g1 g2 g3 rest, IsDigits g1 ∧ IsDigits g2 ∧ IsDigits g3 ∧
        cs = "webrtc://tile/".toList ++ (g1 ++ ("/".toList ++ (g2 ++ ("/".toList ++
          (g3 ++ rest))))) := by
  constructor
  · rintro ⟨m, hm⟩
    unfold matchHere at hm
    cases h0 : dropLiteral "webrtc://tile/".toList cs with
    | none => simp only [h0] at hm; exact absurd hm (by simp)
    | some r1 =>
      cases h1 : digitGroup r1 with
      | none => simp only [h0, h1] at hm; exact absurd hm (by simp)
      | some p1 =>
        obtain ⟨g1, r2⟩ := p1
        cases h2 : dropLiteral "/".toList r2 with
        | none => simp only [h0, h1, h2] at hm; exact absurd hm (by simp)
        | some r3 =>
          cases h3 : digitGroup r3 with
          | none => simp only [h0, h1, h2, h3] at hm; exact absurd hm (by simp)
          | some p2 =>
            obtain ⟨g2, r4⟩ := p2
            cases h4 : dropLiteral "/".toList r4 with
            | none => simp only [h0, h1, h2, h3, h4] at hm; exact absurd hm (by simp)
            | some r5 =>
              cases h5 : digitGroup r5 with
              | none => simp only [h0, h1, h2, h3, h4, h5] at hm; exact absurd hm (by simp)
              | some p3 =>
                obtain ⟨g3, r6⟩ := p3
                obtain ⟨e1, d1⟩ := digitGroup_some _ _ _ h1
                obtain ⟨e2, d2⟩ := digitGroup_some _ _ _ h3
                obtain ⟨e3, d3⟩ := digitGroup_some _ _ _ h5
                refine ⟨g1, g2, g3, r6, d1, d2, d3, ?_⟩
                rw [dropLiteral_some _ _ _ h0, e1, dropLiteral_some _ _ _ h2, e2,
                  dropLiteral_some _ _ _ h4, e3]
  · rintro ⟨g1, g2, g3, rest, d1, d2, d3, e⟩
    have e1 : digitGroup (g1 ++ ("/".toList ++ (g2 ++ ("/".toList ++ (g3 ++ rest)))))
        = some (g1, "/".toList ++ (g2 ++ ("/".toList ++ (g3 ++ rest)))) :=
      digitGroup_append g1 _ d1.2 d1.1 (slash_not_digit _)
    have e2 : digitGroup (g2 ++ ("/".toList ++ (g3 ++ rest)))
        = some (g2, "/".toList ++ (g3 ++ rest)) :=
      digitGroup_append g2 _ d2.2 d2.1 (slash_not_digit _)
    obtain ⟨g4, r4, e3⟩ := digitGroup_isSome g3 rest d3
    refine ⟨(g1, g2, g4), ?_⟩
    subst e
    unfold matchHere
    rw [dropLiteral_append]
    simp only [e1, dropLiteral_append, e2, e3]

theorem regexSearch_none_iff (cs : List Char) :
    regexSearch cs = none ↔ ∀ before rest, cs = before ++ rest → matchHere rest = none := by
  induction cs with
  | nil =>
    constructor
    · intro h before rest e
      have : rest = [] := by
        cases before <;> simp at e
        exact e
      rw [this]
      simpa [regexSearch] using h
    · intro h
      simpa [regexSearch] using h [] [] rfl
  | cons c cs ih =>
    constructor
    · intro h before rest e
      cases hm : matchHere (c :: cs) with
      | some m => simp [regexSearch, hm] at h
      | none =>
        have hrec : regexSearch cs = none := by simpa [regexSearch, hm] using h
        cases before with
        | nil =>
          simp at e
          rw [← e]
          exact hm
        | cons b bs =>
          simp at e
          exact (ih.mp hrec) bs rest e.2
    · intro h
      have hm : matchHere (c :: cs) = none := h [] (c :: cs) rfl
      have hrec : regexSearch cs = none :=
        ih.mpr (fun before rest e => h (c :: before) rest (by simp [e]))
      simp [regexSearch, hm, hrec]

theorem parseTileUrl_none_iff (url : String) :
    _parseTileUrl url = none ↔ ¬ ContainsTileIdentifier url.toList := by
  have hp : _parseTileUrl url = none ↔ regexSearch url.toList = none := by
    unfold _parseTileUrl
    cases regexSearch url.toList with
    | none => simp
    | some m => obtain ⟨a, b, c⟩ := m; simp
  rw [hp, regexSearch_none_iff]
  constructor
  · rintro h ⟨before, g1, g2, g3, rest, d1, d2, d3, e⟩
    have hn := h before _ e
    obtain ⟨m, hm⟩ := (matchHere_isSome_iff _).mpr ⟨g1, g2, g3, rest, d1, d2, d3, rfl⟩
    rw [hm] at hn
    exact Option.noConfusion hn
  · intro h before rest e
    cases hm : matchHere rest with
    | none => rfl
    | some m =>
      obtain ⟨g1, g2, g3, r, d1, d2, d3, e2⟩ := (matchHere_isSome_iff rest).mp ⟨m, hm⟩
      exact absurd ⟨before, g1, g2, g3, r, d1, d2, d3, by rw [e, e2]⟩ h

/-- C13, as the code has it: `_parseTileUrl` returns `null` exactly for the strings that do not
contain the form `webrtc://tile/<level>/<x>/<y>` anywhere; a string that contains it, with any
characters before or after, is parsed. When the transport and the channel name are present,
`downloadTileStart` on a string that does not contain the form fails the context with the
invalid-identifier reason and registers nothing. -/
theorem rejects_iff_pattern_absent (s : State) (context : Context) (send : SendOutcome) :
    (_parseTileUrl context.src = none ↔ ¬ ContainsTileIdentifier context.src.toList) ∧
    (s.sdpcRtc = true → truthy s.channelName = true →
      ¬ ContainsTileIdentifier context.src.toList →
      (downloadTileStart s context send).pendingRequests = s.pendingRequests ∧
      (downloadTileStart s context send).timers = s.timers ∧
      (downloadTileStart s context send).trace = s.trace ++
        (Effect.fail context "Invalid tile URL format" (registryKeys s) ::
          (if s.onError then [Effect.onError "Invalid tile URL format"] else []))) := by
  refine ⟨parseTileUrl_none_iff context.src, ?_⟩
  intro h1 h2 h3
  have hn := (parseTileUrl_none_iff context.src).mpr h3
  have hg : (!s.sdpcRtc || !truthy s.channelName) = false := by simp [h1, h2]
  unfold downloadTileStart
  rw [hg, hn]
  cases ho : s.onError <;>
    simp [_triggerError, ho, handleTileError, emit, contextFail, registryKeys]

theorem rejects_iff_pattern_absent_witness :
    (onePending.sdpcRtc = true ∧ truthy onePending.channelName = true ∧
      ¬ ContainsTileIdentifier badContext.src.toList) ∧
    (downloadTileStart onePending badContext SendOutcome.sent).pendingRequests =
      onePending.pendingRequests ∧
    (downloadTileStart onePending badContext SendOutcome.sent).timers = onePending.timers ∧
    (downloadTileStart onePending badContext SendOutcome.sent).trace = onePending.trace ++
      (Effect.fail badContext "Invalid tile URL format" (registryKeys onePending) ::
        (if onePending.onError then [Effect.onError "Invalid tile URL format"] else [])) :=
  have h := rejects_iff_pattern_absent onePending badContext SendOutcome.sent
  have habsent : ¬ ContainsTileIdentifier badContext.src.toList := h.1.mp (by decide)
  ⟨⟨by decide, by decide, habsent⟩, h.2 (by decide) (by decide) habsent⟩

/-- C13 fails as stated: `xxwebrtc://tile/3/5/7abc` is not of the documented form, yet
`_parseTileUrl` returns the coordinate `(3, 5, 7)` for it and `downloadTileStart` registers a
request for it without failing the context. -/
theorem lax_identifier_accepted :
    ¬ IsTileIdentifier laxIdentifier.toList ∧
    _parseTileUrl laxIdentifier = some { level := 3, x := 5, y := 7 } ∧
    getPendingRequestCount
      (downloadTileStart demoSource { ref := 1, src := laxIdentifier } SendOutcome.sent) = 1 ∧
    terminalCount 1
      (downloadTileStart demoSource { ref := 1, src := laxIdentifier } SendOutcome.sent).trace
        = 0 := by
  refine ⟨?_, by decide, by decide, by decide⟩
  rintro ⟨g1, g2, g3, _, _, _, h⟩
  simp [laxIdentifier] at h

/-! ## Request id sequences -/

theorem generateRequestIds_counter (clocks : List Nat) :
    ∀ s : State, ∀ id ∈ generateRequestIds s clocks,
      ∃ n t, s.requestCounter < n ∧ id = requestIdFor n t := by
  induction clocks with
  | nil => intro s id h; simp [generateRequestIds] at h
  | cons t ts ih =>
    intro s id h
    simp only [generateRequestIds, List.mem_cons] at h
    rcases h with h | h
    · exact ⟨s.requestCounter + 1, t, by omega, by rw [h]; rfl⟩
    · obtain ⟨n, u, hn, e⟩ := ih _ id h
      have hc : (_generateRequestId { s with now := t }).2.requestCounter =
          s.requestCounter + 1 := rfl
      exact ⟨n, u, by omega, e⟩

theorem generateRequestIds_nodup (clocks : List Nat) :
    ∀ s : State, (generateRequestIds s clocks).Nodup := by
  induction clocks with
  | nil => intro s; simp [generateRequestIds]
  | cons t ts ih =>
    intro s
    simp only [generateRequestIds, List.nodup_cons]
    refine ⟨?_, ih _⟩
    intro hin
    obtain ⟨n, u, hn, e⟩ := generateRequestIds_counter ts _ _ hin
    have hc : (_generateRequestId { s with now := t }).2.requestCounter =
        s.requestCounter + 1 := rfl
    have e2 : (_generateRequestId { s with now := t }).1 =
        requestIdFor (s.requestCounter + 1) t := rfl
    rw [e2] at e
    have := requestIdFor_counter_injective _ _ _ _ e
    omega

/-- C14. The request ids generated by any sequence of `_generateRequestId` calls on one tile
source are pairwise distinct, whatever the clock reads at each call (equal readings and a
clock that goes backwards included); and in every state a tile source can reach, the id the
next registration generates is not a key of the pending-request map, so a registration never
overwrites an entry. -/
theorem request_ids_unique (s : State) (clocks : List Nat) (options : Options) (now : Nat)
    (held : Bool) (events : List Event) :
    (generateRequestIds s clocks).Nodup ∧
    (_generateRequestId (run (construct options now held) events)).1 ∉
      registryKeys (run (construct options now held) events) :=
  ⟨generateRequestIds_nodup clocks s,
    fresh_requestId _ (wellFormed_run events _ (wellFormed_construct options now held))⟩


/-- C15. When a live timer fires while the entry registered under its request id is still
pending, exactly that entry is removed and every other entry is unchanged, the context of the
entry is failed exactly once with the reason `Request timeout: <requestId>`, `finish` is not
called, and the pending count drops by one. The state satisfies the representation
invariant. -/
theorem timeout_effect (s : State) (id : Nat) (t : Timer)
    (pre post : List (String × Request)) (q : Request) (hwf : WellFormed s)
    (ht : s.timers.find? (fun u => u.id == id) = some t)
    (hs : s.pendingRequests = pre ++ (t.requestId, q) :: post) :
    (fireTimeout s id).pendingRequests = pre ++ post ∧
    getPendingRequestCount (fireTimeout s id) + 1 = getPendingRequestCount s ∧
    (fireTimeout s id).timers = s.timers.filter (fun u => u.id != id) ∧
    (fireTimeout s id).images = s.images ∧
    (fireTimeout s id).trace = s.trace ++
      (Effect.fail q.context ("Request timeout: " ++ t.requestId)
          ((pre ++ post).map Prod.fst) ::
        (if s.onError then [Effect.onError ("Request timeout: " ++ t.requestId)] else [])) ∧
    terminalCount q.context.ref (fireTimeout s id).trace =
      terminalCount q.context.ref s.trace + 1 := by
  obtain ⟨hp, htm, hi, _, htr⟩ := fireTimeout_found s id t ht
  have hq : (t.requestId, q) ∈ s.pendingRequests := by rw [hs]; simp
  obtain ⟨q2, hq2, _, hctx⟩ := hwf.2.2 t (List.mem_of_find?_eq_some ht)
  have e : q = q2 := registry_entry_unique _ hwf.1 _ _ _ hq hq2
  have hdel : mapDelete t.requestId s.pendingRequests = pre ++ post := by
    rw [hs]
    refine mapDelete_middle _ q pre post ?_
    have := hwf.1
    unfold registryKeys at this
    rw [hs] at this
    exact this
  rw [hdel] at hp htr
  rw [← hctx, ← e] at htr
  refine ⟨hp, ?_, htm, hi, htr, ?_⟩
  · unfold getPendingRequestCount
    rw [hp, hs]
    simp
    omega
  · rw [htr, terminalCount_append]
    cases s.onError <;> simp [terminalCount, List.countP_cons, isTerminalFor]

theorem timeout_effect_witness :
    (WellFormed shortPending ∧
      shortPending.timers.find? (fun u => u.id == 1) = some shortTimer ∧
      shortPending.pendingRequests = [] ++ (shortTimer.requestId, shortRequest) :: []) ∧
    ((fireTimeout shortPending 1).pendingRequests = [] ++ [] ∧
      getPendingRequestCount (fireTimeout shortPending 1) + 1 =
        getPendingRequestCount shortPending) ∧
    getPendingRequestCount (fireTimeout shortPending 1) = 0 :=
  have hwf : WellFormed shortPending := wellFormed_run _ _ (wellFormed_construct _ _ _)
  have h := timeout_effect shortPending 1 shortTimer [] [] shortRequest hwf (by decide)
    (by decide)
  ⟨⟨hwf, by decide, by decide⟩, ⟨h.1, h.2.1⟩, by decide⟩

/-! ## Teardown -/

theorem failCount_cancelled (c : Nat) (keys : List String)
    (entries : List (String × Request)) :
    ((entries.map (fun p =>
        [Effect.clearTimeout p.2.timeoutId,
          Effect.fail p.2.context "Request cancelled" keys])).flatten).countP (isFailFor c) =
      entries.countP (fun p => p.2.context.ref == c) := by
  induction entries with
  | nil => rfl
  | cons p ps ih =>
    rw [List.map_cons, List.flatten_cons, List.countP_append, ih, List.countP_cons]
    simp [List.countP_cons, isFailFor]
    omega

/-- C16. For every state, `clearPendingRequests` leaves the pending-request map empty, so
`getPendingRequestCount` returns 0; for each pending entry, in insertion order, it clears the
timer of the entry and calls `fail` with the reason `Request cancelled` on the context of the
entry, and does nothing else: the number of `fail` calls a context receives is the number of
pending entries that store it (one for an entry of its own, none for any other context), no
timer of a pending entry stays live, and `finish` is never called. -/
theorem clearPendingRequests_effect (s : State) :
    (clearPendingRequests s).pendingRequests = [] ∧
    getPendingRequestCount (clearPendingRequests s) = 0 ∧
    (∃ added, (clearPendingRequests s).trace = s.trace ++ added ∧
      added = (s.pendingRequests.map (fun p =>
        [Effect.clearTimeout p.2.timeoutId,
          Effect.fail p.2.context "Request cancelled" (registryKeys s)])).flatten ∧
      (∀ c, added.countP (isFailFor c) = pendingCount c s) ∧
      (∀ c, terminalCount c added = pendingCount c s) ∧
      ∀ e ∈ added, isFinish e = false) ∧
    (∀ p ∈ s.pendingRequests, ∀ t ∈ (clearPendingRequests s).timers,
      t.id ≠ p.2.timeoutId) := by
  rw [clearPendingRequests_eq]
  refine ⟨rfl, rfl, ⟨_, rfl, rfl, ?_, ?_, ?_⟩, ?_⟩
  · intro c
    exact failCount_cancelled c _ _
  · intro c
    exact terminalCount_cancelled c _ _
  · intro e he
    simp only [List.mem_flatten, List.mem_map] at he
    obtain ⟨l, ⟨p, _, hl⟩, hel⟩ := he
    subst hl
    simp at hel
    rcases hel with hel | hel <;> subst hel <;> rfl
  · intro p hp t ht
    simp only [List.mem_filter, List.all_eq_true] at ht
    simpa using ht.2 p hp

/-! ## Matched responses -/

theorem handleResponse_found_success (s : State) (r : ResponseData) (k : String) (q : Request)
    (hf : s.pendingRequests.find? (fun p => r.requestId == expectedResponseId p.2) = some (k, q))
    (h200 : r.responseCode = 200) (hdata : truthy r.resposeData = true) :
    (handleResponse s r).images = s.images ++
      [{ id := s.nextImage,
         src := if "data:".toList.isPrefixOf (r.resposeData.getD "").toList
           then r.resposeData.getD ""
           else "data:image/jpeg;base64," ++ r.resposeData.getD "",
         context := q.context }] ∧
    (handleResponse s r).trace = s.trace ++ (Effect.clearTimeout q.timeoutId ::
      ((if s.onResponse then [Effect.onResponse r q] else []) ++
        [Effect.imageSrc s.nextImage
          (if "data:".toList.isPrefixOf (r.resposeData.getD "").toList
            then r.resposeData.getD ""
            else "data:image/jpeg;base64," ++ r.resposeData.getD "")])) := by
  unfold handleResponse
  rw [hf]
  simp only [h200, hdata, and_self, if_true]
  cases ho : s.onResponse <;>
    simp [_triggerResponse, ho, handleTileResponse, emit, clearTimeout, _loadImageFromBase64]

theorem handleResponse_found_failure (s : State) (r : ResponseData) (k : String) (q : Request)
    (hf : s.pendingRequests.find? (fun p => r.requestId == expectedResponseId p.2) = some (k, q))
    (hbad : ¬ (r.responseCode = 200 ∧ truthy r.resposeData = true)) :
    (handleResponse s r).images = s.images ∧
    (handleResponse s r).trace = s.trace ++ (Effect.clearTimeout q.timeoutId ::
      ((if s.onResponse then [Effect.onResponse r q] else []) ++
        (Effect.fail q.context
            (if truthy r.error then r.error.getD ""
              else "HTTP " ++ numberToString r.responseCode)
            ((mapDelete k s.pendingRequests).map Prod.fst) ::
          (if s.onError then
            [Effect.onError (if truthy r.error then r.error.getD ""
              else "HTTP " ++ numberToString r.responseCode)]
           else [])))) := by
  unfold handleResponse
  rw [hf]
  simp only [hbad, if_false]
  cases ho : s.onResponse <;> cases he : s.onError <;>
    simp [_triggerResponse, _triggerError, ho, he, handleTileResponse, handleTileError, emit,
      clearTimeout, contextFail, registryKeys]

/-- C17. For a response matched to the pending entry `q`: when the code is 200 and a non-empty
payload is present, the payload is handed to the image loader for the context of `q` (the image
source is the payload itself when it starts with `data:`, and the payload after
`data:image/jpeg;base64,` otherwise) and `handleResponse` itself calls no sink; otherwise the
context of `q` is failed exactly once, with the error message of the response when it carries a
non-empty one and with `HTTP <responseCode>` when it does not, no image is started and `finish`
is not called. -/
theorem remote_error_handling (s : State) (r : ResponseData) (k : String) (q : Request)
    (hf : s.pendingRequests.find? (fun p => r.requestId == expectedResponseId p.2)
      = some (k, q)) :
    ((r.responseCode = 200 ∧ truthy r.resposeData = true) →
      (∃ payload, r.resposeData = some payload ∧ payload ≠ "" ∧
        (handleResponse s r).images = s.images ++
          [{ id := s.nextImage,
             src := if "data:".toList.isPrefixOf payload.toList then payload
               else "data:image/jpeg;base64," ++ payload,
             context := q.context }] ∧
        (handleResponse s r).trace = s.trace ++ (Effect.clearTimeout q.timeoutId ::
          ((if s.onResponse then [Effect.onResponse r q] else []) ++
            [Effect.imageSrc s.nextImage
              (if "data:".toList.isPrefixOf payload.toList then payload
                else "data:image/jpeg;base64," ++ payload)]))) ∧
      (∃ src, (handleResponse s r).images =
        s.images ++ [{ id := s.nextImage, src := src, context := q.context }]) ∧
      ∀ c, terminalCount c (handleResponse s r).trace = terminalCount c s.trace) ∧
    (¬ (r.responseCode = 200 ∧ truthy r.resposeData = true) →
      (handleResponse s r).images = s.images ∧
      (∃ added, (handleResponse s r).trace = s.trace ++ added ∧
        added.countP (isFailFor q.context.ref) = 1 ∧
        (∀ e ∈ added, isFinish e = false) ∧
        (∀ c, c ≠ q.context.ref → terminalCount c added = 0) ∧
        Effect.fail q.context
            (if truthy r.error then r.error.getD ""
              else "HTTP " ++ numberToString r.responseCode)
            ((mapDelete k s.pendingRequests).map Prod.fst) ∈ added)) := by
  constructor
  · rintro ⟨h200, hdata⟩
    obtain ⟨hi, htr⟩ := handleResponse_found_success s r k q hf h200 hdata
    refine ⟨?_, ⟨_, hi⟩, ?_⟩
    · cases hd : r.resposeData with
      | none => simp [hd, truthy] at hdata
      | some payload =>
        rw [hd] at hi htr hdata
        refine ⟨payload, rfl, ?_, hi, htr⟩
        simpa [truthy] using hdata
    · intro c
      rw [htr, terminalCount_append]
      cases s.onResponse <;> simp [terminalCount, List.countP_cons, isTerminalFor]
  · intro hbad
    obtain ⟨hi, htr⟩ := handleResponse_found_failure s r k q hf hbad
    refine ⟨hi, _, htr, ?_, ?_, ?_, ?_⟩
    · cases s.onResponse <;> cases s.onError <;> simp [List.countP_cons, isFailFor]
    · cases s.onResponse <;> cases s.onError <;> simp [isFinish]
    · intro c hc
      have hc2 : ¬ q.context.ref = c := fun e => hc e.symm
      cases s.onResponse <;> cases s.onError <;>
        simp [terminalCount, List.countP_cons, isTerminalFor, hc2]
    · cases s.onResponse <;> simp

theorem remote_error_handling_witness :
    (onePending.pendingRequests.find?
        (fun p => errorResponse.requestId == expectedResponseId p.2)
      = some ("req_1_1000", firstRequest) ∧
      ¬ (errorResponse.responseCode = 200 ∧ truthy errorResponse.resposeData = true) ∧
      (okResponse.responseCode = 200 ∧ truthy okResponse.resposeData = true) ∧
      (dataUrlResponse.responseCode = 200 ∧ truthy dataUrlResponse.resposeData = true)) ∧
    ((handleResponse onePending errorResponse).images = onePending.images ∧
      ∃ added, (handleResponse onePending errorResponse).trace = onePending.trace ++ added ∧
        added.countP (isFailFor firstRequest.context.ref) = 1 ∧
        (∀ e ∈ added, isFinish e = false) ∧
        (∀ c, c ≠ firstRequest.context.ref → terminalCount c added = 0) ∧
        Effect.fail firstRequest.context
            (if truthy errorResponse.error then errorResponse.error.getD ""
              else "HTTP " ++ numberToString errorResponse.responseCode)
            ((mapDelete "req_1_1000" onePending.pendingRequests).map Prod.fst) ∈ added) ∧
    (if truthy errorResponse.error then errorResponse.error.getD ""
      else "HTTP " ++ numberToString errorResponse.responseCode) = "HTTP 500" ∧
    (∃ payload, okResponse.resposeData = some payload ∧ payload ≠ "" ∧
      (handleResponse onePending okResponse).images = onePending.images ++
        [{ id := onePending.nextImage,
           src := if "data:".toList.isPrefixOf payload.toList then payload
             else "data:image/jpeg;base64," ++ payload,
           context := firstRequest.context }] ∧
      (handleResponse onePending okResponse).trace = onePending.trace ++
        (Effect.clearTimeout firstRequest.timeoutId ::
          ((if onePending.onResponse then [Effect.onResponse okResponse firstRequest]
            else []) ++
            [Effect.imageSrc onePending.nextImage
              (if "data:".toList.isPrefixOf payload.toList then payload
                else "data:image/jpeg;base64," ++ payload)]))) ∧
    (handleResponse onePending okResponse).images =
      [{ id := 0, src := "data:image/jpeg;base64,iVBORw0KGgo=",
         context := firstRequest.context }] ∧
    (handleResponse onePending dataUrlResponse).images =
      [{ id := 0, src := "data:image/png;base64,iVBORw0KGgo=",
         context := firstRequest.context }] ∧
    terminalCount 1 (handleResponse onePending okResponse).trace =
      terminalCount 1 onePending.trace :=
  have hbad := (remote_error_handling onePending errorResponse "req_1_1000" firstRequest
    (by decide)).2 (by decide)
  have hok := (remote_error_handling onePending okResponse "req_1_1000" firstRequest
    (by decide)).1 (by decide)
  ⟨⟨by decide, by decide, by decide, by decide⟩, hbad, by decide, hok.1, by decide,
    by decide, hok.2.2 1⟩

/-! ## What a sink observes -/

theorem key_not_mem_mapDelete (k : String) (m : List (String × Request)) :
    k ∉ (mapDelete k m).map Prod.fst := by
  intro h
  obtain ⟨p, hp, e⟩ := List.mem_map.mp h
  exact ((mem_mapDelete k m p).mp hp).2 e

theorem image_context_not_pending (options : Options) (now : Nat) (held : Bool)
    (events : List Event) (h : (startedRefs events).Nodup) (i : ImageLoad)
    (hi : i ∈ (run (construct options now held) events).images) :
    pendingCount i.context.ref (run (construct options now held) events) = 0 := by
  have h1 := resolution_run events i.context.ref (construct options now held)
    (wellFormed_construct options now held)
  have h0 : resolutionCount i.context.ref (construct options now held) = 0 := by
    simp [resolutionCount, terminalCount, pendingCount, imageCount, construct]
  have h2 := List.nodup_iff_count_le_one.mp h i.context.ref
  have h3 : 0 < imageCount i.context.ref (run (construct options now held) events) := by
    unfold imageCount
    rw [List.countP_pos_iff]
    exact ⟨i, hi, by simp⟩
  unfold resolutionCount at h1 h0
  omega

/-- C18, as the code has it: in a matched response, a timeout firing and a send failure the
entry has already been removed from the pending-request map when its sink is called (the keys
the sink observes do not contain the key of the entry); `downloadTileAbort` calls no sink; when
an image settles, in a run that starts no context twice, no pending entry stores the context
that is finished or failed; and `clearPendingRequests` calls every sink while the map still
holds all its entries, emptying it only after the loop. -/
theorem removed_before_notified :
    (∀ (s : State) (r : ResponseData) (k : String) (q : Request),
      s.pendingRequests.find? (fun p => r.requestId == expectedResponseId p.2) = some (k, q) →
      ∃ added, (handleResponse s r).trace = s.trace ++ added ∧
        ∀ e ∈ added, ∀ reg, sinkRegistry e = some reg → k ∉ reg) ∧
    (∀ (s : State) (id : Nat) (t : Timer),
      s.timers.find? (fun u => u.id == id) = some t →
      ∃ added, (fireTimeout s id).trace = s.trace ++ added ∧
        ∀ e ∈ added, ∀ reg, sinkRegistry e = some reg → t.requestId ∉ reg) ∧
    (∀ (s : State) (context : Context) (message : String) (tc : TileCoords),
      WellFormed s → s.sdpcRtc = true → truthy s.channelName = true →
      _parseTileUrl context.src = some tc →
      ∃ added, (downloadTileStart s context (SendOutcome.threw message)).trace =
          s.trace ++ added ∧
        ∀ e ∈ added, ∀ reg, sinkRegistry e = some reg → (_generateRequestId s).1 ∉ reg) ∧
    (∀ (s : State) (context : Context),
      ∃ added, (downloadTileAbort s context).trace = s.trace ++ added ∧
        ∀ e ∈ added, sinkRegistry e = none) ∧
    (∀ (options : Options) (now : Nat) (held : Bool) (events : List Event) (id : Nat)
      (loaded : Bool), (startedRefs events).Nodup →
      ∃ added, (imageSettled (run (construct options now held) events) id loaded).trace =
          (run (construct options now held) events).trace ++ added ∧
        ∀ e ∈ added, ∀ c, isTerminalFor c e = true →
          pendingCount c (run (construct options now held) events) = 0) ∧
    (∀ s : State,
      ∃ added, (clearPendingRequests s).trace = s.trace ++ added ∧
        ∀ e ∈ added, ∀ reg, sinkRegistry e = some reg → reg = registryKeys s) := by
  refine ⟨?_, ?_, ?_, ?_, ?_, ?_⟩
  · intro s r k q hf
    have hk := key_not_mem_mapDelete k s.pendingRequests
    by_cases hok : r.responseCode = 200 ∧ truthy r.resposeData = true
    · obtain ⟨_, htr⟩ := handleResponse_found_success s r k q hf hok.1 hok.2
      refine ⟨_, htr, ?_⟩
      cases s.onResponse <;> simp [sinkRegistry]
    · obtain ⟨_, htr⟩ := handleResponse_found_failure s r k q hf hok
      refine ⟨_, htr, ?_⟩
      cases s.onResponse <;> cases s.onError <;> simp [sinkRegistry] <;> simpa using hk
  · intro s id t hf
    have hk := key_not_mem_mapDelete t.requestId s.pendingRequests
    obtain ⟨_, _, _, _, htr⟩ := fireTimeout_found s id t hf
    refine ⟨_, htr, ?_⟩
    cases s.onError <;> simp [sinkRegistry] <;> simpa using hk
  · intro s context message tc hwf h1 h2 h3
    have hfresh := fresh_requestId s hwf
    obtain ⟨_, _, _, hthrew⟩ := downloadTileStart_accepted s context
      (SendOutcome.threw message) tc h1 h2 h3 hfresh
    refine ⟨_, (hthrew message rfl).2.2, ?_⟩
    have e : (_generateRequestId s).1 = requestIdFor (s.requestCounter + 1) s.now := rfl
    rw [e]
    cases s.onError <;> simp [sinkRegistry] <;> exact hfresh
  · intro s context
    cases hf : s.pendingRequests.find? (fun p => p.2.context.ref == context.ref) with
    | none =>
      rw [downloadTileAbort_none s context hf]
      exact ⟨[], by simp, by simp⟩
    | some p =>
      obtain ⟨k, q⟩ := p
      rw [downloadTileAbort_found s context k q hf]
      exact ⟨_, rfl, by simp [sinkRegistry]⟩
  · intro options now held events id loaded hnodup
    cases hf : (run (construct options now held) events).images.find?
        (fun j => j.id == id) with
    | none =>
      rw [imageSettled_none _ id loaded hf]
      exact ⟨[], by simp, by simp⟩
    | some i =>
      rw [imageSettled_found _ id loaded i hf]
      refine ⟨_, rfl, ?_⟩
      have hz := image_context_not_pending options now held events hnodup i
        (List.mem_of_find?_eq_some hf)
      intro e he c hc
      simp only [List.mem_singleton] at he
      subst he
      cases loaded <;> simp [isTerminalFor] at hc <;> rw [← hc] <;> exact hz
  · intro s
    rw [clearPendingRequests_eq]
    refine ⟨_, rfl, ?_⟩
    intro e he reg hreg
    simp only [List.mem_flatten, List.mem_map] at he
    obtain ⟨l, ⟨p, _, hl⟩, hel⟩ := he
    subst hl
    simp at hel
    rcases hel with hel | hel <;> subst hel <;> simp [sinkRegistry] at hreg
    exact hreg.symm

theorem removed_before_notified_witness :
    (onePending.pendingRequests.find?
        (fun p => errorResponse.requestId == expectedResponseId p.2)
        = some ("req_1_1000", firstRequest) ∧
      shortPending.timers.find? (fun u => u.id == 1) = some shortTimer) ∧
    (∃ added, (handleResponse onePending errorResponse).trace = onePending.trace ++ added ∧
      ∀ e ∈ added, ∀ reg, sinkRegistry e = some reg → "req_1_1000" ∉ reg) ∧
    (∃ added, (fireTimeout shortPending 1).trace = shortPending.trace ++ added ∧
      ∀ e ∈ added, ∀ reg, sinkRegistry e = some reg → shortTimer.requestId ∉ reg) :=
  ⟨⟨by decide, by decide⟩,
    removed_before_notified.1 onePending errorResponse "req_1_1000" firstRequest (by decide),
    removed_before_notified.2.1 shortPending 1 shortTimer (by decide)⟩

/-- C18 fails as stated: `clearPendingRequests` on a source with one pending entry calls `fail`
on the context of that entry while the map still holds the entry: the sink observes the key
`req_1_1000` of the entry being cancelled, and a pending count of 1. -/
theorem clear_notifies_before_removal :
    ("req_1_1000", firstRequest) ∈ onePending.pendingRequests ∧
    (clearPendingRequests onePending).trace.getLast? =
      some (Effect.fail firstRequest.context "Request cancelled" ["req_1_1000"]) ∧
    (clearPendingRequests onePending).pendingRequests = [] := by
  decide

/-! ## Counting matched responses -/

theorem imageSettled_stats (s : State) (id : Nat) (loaded : Bool) :
    (imageSettled s id loaded).stats = s.stats := by
  cases hf : s.images.find? (fun j => j.id == id) with
  | none => rw [imageSettled_none s id loaded hf]
  | some i => rw [imageSettled_found s id loaded i hf]

/-- C19, as the code has it: with the handlers installed, a matched response with code 200 and
a non-empty payload increments `successCount` by exactly one and leaves `errorCount` and
`totalRequests` unchanged; the completion of the image it starts changes no counter, whether it
finishes or fails the sink. -/
theorem success_counted_once (s : State) (r : ResponseData) (k : String) (q : Request)
    (hw : Wired s)
    (hf : s.pendingRequests.find? (fun p => r.requestId == expectedResponseId p.2)
      = some (k, q))
    (h200 : r.responseCode = 200) (hdata : truthy r.resposeData = true) :
    (handleResponse s r).stats.successCount = s.stats.successCount + 1 ∧
    (handleResponse s r).stats.errorCount = s.stats.errorCount ∧
    (handleResponse s r).stats.totalRequests = s.stats.totalRequests ∧
    ∀ id loaded, (imageSettled (handleResponse s r) id loaded).stats =
      (handleResponse s r).stats := by
  obtain ⟨ht, hs, he, _⟩ := response_success_stats s r k q hw hf h200 hdata
  exact ⟨hs, he, ht, fun id loaded => imageSettled_stats _ id loaded⟩

theorem success_counted_once_witness :
    (Wired onePending ∧
      onePending.pendingRequests.find?
        (fun p => okResponse.requestId == expectedResponseId p.2)
        = some ("req_1_1000", firstRequest) ∧
      okResponse.responseCode = 200 ∧ truthy okResponse.resposeData = true) ∧
    onePending.stats.successCount = 0 ∧
    (handleResponse onePending okResponse).stats.successCount =
      onePending.stats.successCount + 1 ∧
    (handleResponse onePending okResponse).stats.errorCount = onePending.stats.errorCount :=
  have hw : Wired onePending := ⟨by decide, by decide, by decide⟩
  have h := success_counted_once onePending okResponse "req_1_1000" firstRequest hw
    (by decide) (by decide) (by decide)
  ⟨⟨hw, by decide, by decide, by decide⟩, by decide, h.1, h.2.1⟩

/-- C19 fails as stated: a matched response with code 500 raises `errorCount` by two; a matched
response with code 200 and no payload raises both `successCount` and `errorCount`; and a
response counted as a success whose image then fails to load leaves the sink failed with
`successCount` 1 and `errorCount` 0. -/
theorem matched_outcomes_miscounted :
    ((handleResponse onePending errorResponse).stats.successCount = 0 ∧
      (handleResponse onePending errorResponse).stats.errorCount = 2) ∧
    ((handleResponse onePending emptyResponse).stats.successCount = 1 ∧
      (handleResponse onePending emptyResponse).stats.errorCount = 1) ∧
    ((imageSettled (handleResponse onePending okResponse) 0 false).trace.countP (isFailFor 1)
        = 1 ∧
      (imageSettled (handleResponse onePending okResponse) 0 false).stats.successCount = 1 ∧
      (imageSettled (handleResponse onePending okResponse) 0 false).stats.errorCount = 0) := by
  decide

/-! ## Successes never exceed requests -/

theorem start_counts (s : State) (context : Context) (send : SendOutcome)
    (hreq : s.onRequest = true) :
    (downloadTileStart s context send).stats.successCount = s.stats.successCount ∧
    (downloadTileStart s context send).stats.totalRequests =
      s.stats.totalRequests + (if startSucceeds s context send then 1 else 0) := by
  unfold downloadTileStart startSucceeds
  cases h1 : s.sdpcRtc <;> cases h2 : truthy s.channelName
  · cases he : s.onError <;> simp [_triggerError, he, handleTileError, emit, contextFail]
  · cases he : s.onError <;> simp [_triggerError, he, handleTileError, emit, contextFail]
  · cases he : s.onError <;> simp [_triggerError, he, handleTileError, emit, contextFail]
  · cases h3 : _parseTileUrl context.src with
    | none =>
      cases he : s.onError <;> simp [_triggerError, he, handleTileError, emit, contextFail]
    | some tc =>
      cases send with
      | sent =>
        simp [_sendSdpcRtcRequest, _triggerRequest, hreq, handleTileRequest, emit,
          _generateRequestId, setTimeout]
      | threw message =>
        simp only [Bool.not_true, Bool.or_self, Bool.false_eq_true, if_false,
          _sendSdpcRtcRequest]
        split <;> cases he : s.onError <;>
          simp [_triggerError, he, handleTileError, emit, _generateRequestId, setTimeout,
            contextFail, clearTimeout]

theorem response_counts (s : State) (r : ResponseData) :
    (handleResponse s r).stats.totalRequests = s.stats.totalRequests ∧
    (handleResponse s r).stats.successCount ≤ s.stats.successCount +
      (if (s.pendingRequests.find?
        (fun p => r.requestId == expectedResponseId p.2)).isSome then 1 else 0) := by
  unfold handleResponse
  cases hf : s.pendingRequests.find? (fun p => r.requestId == expectedResponseId p.2) with
  | none =>
    cases he : s.onError <;> simp [_triggerError, he, handleTileError, emit]
  | some p =>
    simp only [Option.isSome_some, if_true]
    split <;> cases ho : s.onResponse <;> cases he : s.onError <;>
      cases hh : s.webrtcTileSource <;>
      simp [_triggerResponse, _triggerError, ho, he, hh, handleTileResponse, handleTileError,
        emit, clearTimeout, contextFail, _loadImageFromBase64] <;>
      split <;> simp

theorem timeout_counts (s : State) (id : Nat) :
    (fireTimeout s id).stats.totalRequests = s.stats.totalRequests ∧
    (fireTimeout s id).stats.successCount = s.stats.successCount ∧
    (fireTimeout s id).pendingRequests.length ≤ s.pendingRequests.length := by
  unfold fireTimeout
  cases hf : s.timers.find? (fun u => u.id == id) with
  | none => simp
  | some t =>
    have := length_mapDelete_le s.pendingRequests t.requestId
    cases he : s.onError <;>
      simp [_triggerError, he, handleTileError, emit, contextFail] <;> exact this

theorem success_step (s : State) (e : Event) (hreq : s.onRequest = true) (hwf : WellFormed s)
    (hb : s.stats.successCount + s.pendingRequests.length ≤ s.stats.totalRequests) :
    (step s e).stats.successCount + (step s e).pendingRequests.length ≤
      (step s e).stats.totalRequests := by
  cases e with
  | start context send =>
    simp only [step]
    obtain ⟨hs, ht⟩ := start_counts s context send hreq
    rw [hs, ht]
    rcases start_cases s context with hr | ⟨h1, h2, tc, h3⟩
    · obtain ⟨_, _, hp, _⟩ := downloadTileStart_rejected s context send hr
      rw [hp]
      omega
    · obtain ⟨_, _, hsent, hthrew⟩ := downloadTileStart_accepted s context send tc h1 h2 h3
        (fresh_requestId s hwf)
      cases send with
      | sent =>
        obtain ⟨hp, _⟩ := hsent rfl
        rw [hp]
        simp [startSucceeds, h1, h2, h3]
        omega
      | threw message =>
        obtain ⟨hp, _⟩ := hthrew message rfl
        rw [hp]
        omega
  | abort context =>
    simp only [step]
    cases hf : s.pendingRequests.find? (fun p => p.2.context.ref == context.ref) with
    | none => rw [downloadTileAbort_none s context hf]; exact hb
    | some p =>
      obtain ⟨k, q⟩ := p
      rw [downloadTileAbort_found s context k q hf]
      have := length_mapDelete_le s.pendingRequests k
      simp only
      omega
  | response r =>
    simp only [step]
    obtain ⟨ht, hs⟩ := response_counts s r
    cases hf : s.pendingRequests.find? (fun p => r.requestId == expectedResponseId p.2) with
    | none =>
      have e : handleResponse s r = _triggerError s ("Unknown response: " ++ r.requestId) := by
        unfold handleResponse
        rw [hf]
      have hp := (triggerError_fields s ("Unknown response: " ++ r.requestId)).1
      rw [← e] at hp
      rw [hf] at hs
      simp only [Option.isSome_none, Bool.false_eq_true, if_false] at hs
      rw [ht, hp]
      omega
    | some p =>
      obtain ⟨k, q⟩ := p
      obtain ⟨hp, _⟩ := handleResponse_found s r k q hf
      have hl := length_mapDelete s.pendingRequests hwf.1 k q (List.mem_of_find?_eq_some hf)
      rw [hf] at hs
      simp only [Option.isSome_some, if_true] at hs
      rw [ht, hp]
      omega
  | timeout id =>
    simp only [step]
    obtain ⟨ht, hs, hl⟩ := timeout_counts s id
    rw [ht, hs]
    omega
  | clear =>
    simp only [step]
    rw [clearPendingRequests_eq]
    simp only [List.length_nil]
    omega
  | image id loaded =>
    simp only [step]
    rw [imageSettled_stats]
    cases hf : s.images.find? (fun j => j.id == id) with
    | none => rw [imageSettled_none s id loaded hf]; exact hb
    | some i => rw [imageSettled_found s id loaded i hf]; exact hb
  | clock now => exact hb

theorem success_run (events : List Event) :
    ∀ s, s.onRequest = true → WellFormed s →
      s.stats.successCount + s.pendingRequests.length ≤ s.stats.totalRequests →
      (run s events).stats.successCount + (run s events).pendingRequests.length ≤
        (run s events).stats.totalRequests := by
  induction events with
  | nil => intro s _ _ hb; exact hb
  | cons e es ih =>
    intro s hreq hwf hb
    exact ih (step s e) ((wired_step s e).1.trans hreq) (wellFormed_step s e hwf)
      (success_step s e hreq hwf hb)

theorem successRate_le (stats : Stats) (h : stats.successCount ≤ stats.totalRequests) :
    successRate stats ≤ 100 := by
  unfold successRate
  split
  · norm_num
  · rename_i hz
    have hpos : (0 : ℚ) < (stats.totalRequests : ℚ) := by
      exact_mod_cast Nat.pos_of_ne_zero hz
    have hle : (stats.successCount : ℚ) ≤ (stats.totalRequests : ℚ) := by exact_mod_cast h
    have := (div_le_one hpos).mpr hle
    linarith

/-- C20. When `onRequest` is the composable handler, in every state reached by any sequence of
events from a freshly constructed tile source, `successCount` is at most `totalRequests`
(every pending entry survived a send that was already counted, and a matched response removes
the entry it counts); hence `successRate` is at most 100, and it is 0, without any division,
when `totalRequests` is 0. -/
theorem success_within_requests (options : Options) (now : Nat) (held : Bool)
    (events : List Event) (hreq : options.onRequest = true) :
    (run (construct options now held) events).stats.successCount ≤
      (run (construct options now held) events).stats.totalRequests ∧
    successRate (run (construct options now held) events).stats ≤ 100 ∧
    ((run (construct options now held) events).stats.totalRequests = 0 →
      successRate (run (construct options now held) events).stats = 0) := by
  have h := success_run events (construct options now held) hreq
    (wellFormed_construct options now held) (by simp [construct, Stats.zero])
  have hle : (run (construct options now held) events).stats.successCount ≤
      (run (construct options now held) events).stats.totalRequests := by omega
  refine ⟨hle, successRate_le _ hle, ?_⟩
  intro hz
  simp [successRate, hz]

theorem success_within_requests_witness :
    wiredOptions.onRequest = true ∧
    (run (construct wiredOptions 1000 true) mixedRun).stats.successCount ≤
      (run (construct wiredOptions 1000 true) mixedRun).stats.totalRequests ∧
    successRate (run (construct wiredOptions 1000 true) mixedRun).stats ≤ 100 :=
  have h := success_within_requests wiredOptions 1000 true mixedRun (by decide)
  ⟨by decide, h.1, h.2.1⟩

end WebRTCTileSource
